import Mathlib

/-!
Shallow embedding of the CPTED-App synchronization core: the Score
Aggregation Engine (src/cpted-assessor/src/services/scoring.ts), the
server sync endpoint (src/server/src/routes/sync.ts), the assessment and
photo routes (src/server/src/routes/assessments.ts, photos.ts), and the
client Push/Pull synchronizer (syncAssessment / pullAssessment).

Modelling conventions: JS strings are `String`, nullable fields are
`Option`, JS numbers are `ℚ` (scores are small integers; averages are
exact rational arithmetic), timestamps are opaque ISO strings, tables of
the relational and the embedded store are Lean lists of rows in
insertion order.
-/

namespace CPTED

/-- ItemScore row (shared shape of the client type, the server table and
the sync payload): one checklist item of one assessment. -/
structure ItemScore where
  id : String
  assessment_id : String
  zone_key : String
  principle : String
  item_text : String
  item_order : Int
  score : Option ℚ
  is_na : Bool
  notes : String
  photo_ids : List String
  deriving Repr, DecidableEq

/-- ZoneScore row: per-zone rollup of one assessment. -/
structure ZoneScore where
  id : String
  assessment_id : String
  zone_key : String
  zone_name : String
  zone_order : Int
  average_score : Option ℚ
  priority_findings : String
  notes : String
  completed : Bool
  deriving Repr, DecidableEq

/-- Recommendation embedded in the Assessment payload. -/
structure Recommendation where
  id : String
  assessment_id : String
  order : Int
  description : String
  priority : String
  rec_type : String
  deriving Repr, DecidableEq

/-- Client-side Assessment record (src/cpted-assessor types; also the
shape of `payload.assessment` sent by syncAssessment). Status values are
the strings in_progress / completed / synced. -/
structure Assessment where
  id : String
  created_at : String
  updated_at : String
  status : String
  property_type : String
  address : String
  city : String
  state : String
  zip : String
  homeowner_name : String
  homeowner_contact : String
  assessor_name : String
  assessor_badge_id : Option String
  assessment_type : String
  weather_conditions : String
  time_of_assessment : String
  date_of_assessment : String
  overall_score : Option ℚ
  top_recommendations : List Recommendation
  quick_wins : List Recommendation
  notes : String
  assessor_signature : Option String
  synced_at : Option String
  deriving Repr, DecidableEq

/-- Client-side Photo row in the embedded store; `data` is the inline
base64 data-URL string, `synced` tracks binary upload. -/
structure Photo where
  id : String
  assessment_id : String
  item_score_id : Option String
  zone_key : String
  captured_at : String
  data : String
  filename : String
  mime_type : String
  gps_lat : Option ℚ
  gps_lng : Option ℚ
  compass_heading : Option ℚ
  annotation_data : Option String
  synced : Bool
  deriving Repr, DecidableEq

/-! ## Score Aggregation Engine

Pure functions of src/cpted-assessor/src/services/scoring.ts; the spec
states the server uses the identical engine, so both the client and the
server sides of the embedding use these definitions. -/

/-- Filter to items that have a numeric score (not null, not N/A). -/
def getScoredItems (items : List ItemScore) : List ItemScore :=
  items.filter (fun s => s.score.isSome && !s.is_na)

/-- Average of scored items, null if none scored. The JS
`reduce((sum, s) => sum + s.score!, 0)` is the left fold starting at 0;
the non-null assertion is rendered as `getD 0`, which is only reached on
items whose score is present. -/
def calculateAverage (items : List ItemScore) : Option ℚ :=
  let scored := getScoredItems items
  if scored.length = 0 then none
  else some ((scored.foldl (fun sum s => sum + s.score.getD 0) 0) / scored.length)

/-- Average of scored items within a specific principle. -/
def calculatePrincipleAverage (items : List ItemScore) (principleKey : String) :
    Option ℚ :=
  calculateAverage (items.filter (fun s => s.principle = principleKey))

/-- Average of all scored items in a zone (alias for calculateAverage). -/
def calculateZoneAverage (zoneItems : List ItemScore) : Option ℚ :=
  calculateAverage zoneItems

/-- Overall score = average of zone averages (equal weight per zone);
zones with no scored items are excluded. The JS `Map` argument is
modelled as its entry list in insertion order. -/
def calculateOverallScore (itemsByZone : List (String × List ItemScore)) :
    Option ℚ :=
  let zoneAverages : List ℚ :=
    itemsByZone.foldl
      (fun acc p =>
        match calculateZoneAverage p.2 with
        | some avg => acc ++ [avg]
        | none => acc) []
  if zoneAverages.length = 0 then none
  else some (zoneAverages.foldl (fun sum a => sum + a) 0 / zoneAverages.length)

/-- True when every item in the zone has been scored or marked N/A. -/
def isZoneComplete (items : List ItemScore) : Bool :=
  if items.length = 0 then false
  else items.all (fun s => s.score.isSome || s.is_na)

/-- Completion counts for a set of items. -/
structure CompletionCounts where
  total : Nat
  scored : Nat
  na : Nat
  addressed : Nat
  remaining : Nat
  deriving Repr, DecidableEq

/-- getCompletionCounts of scoring.ts. -/
def getCompletionCounts (items : List ItemScore) : CompletionCounts :=
  let scored := (items.filter (fun s => s.score.isSome && !s.is_na)).length
  let na := (items.filter (fun s => s.is_na)).length
  let addressed := scored + na
  { total := items.length
    scored := scored
    na := na
    addressed := addressed
    remaining := items.length - addressed }

/-! ## Server data model (src/server db/schema, part_001) -/

/-- Server `assessments` table row. -/
structure SAssessment where
  id : String
  created_at : String
  updated_at : String
  status : String
  property_type : String
  address : String
  city : String
  state : String
  zip : String
  homeowner_name : String
  homeowner_contact : String
  assessor_name : String
  assessor_badge_id : Option String
  assessment_type : String
  weather_conditions : String
  time_of_assessment : String
  date_of_assessment : String
  overall_score : Option ℚ
  top_recommendations : List Recommendation
  quick_wins : List Recommendation
  notes : String
  assessor_signature : Option String
  synced_at : Option String
  deriving Repr, DecidableEq

/-- Server `photos` table row; `blob_path` is the on-disk file path. -/
structure SPhoto where
  id : String
  assessment_id : String
  item_score_id : Option String
  zone_key : String
  captured_at : String
  blob_path : String
  filename : String
  mime_type : String
  gps_lat : Option ℚ
  gps_lng : Option ℚ
  compass_heading : Option ℚ
  annotation_data : Option String
  synced : Bool
  deriving Repr, DecidableEq

/-- The remote relational store: each table as its row list in insertion
order. -/
structure ServerState where
  assessments : List SAssessment
  zone_scores : List ZoneScore
  item_scores : List ItemScore
  photos : List SPhoto
  deriving Repr, DecidableEq

/-- Body of POST /api/sync, exactly what syncAssessment sends: the full
client Assessment, the local zone and item rows, and photo metadata
(the deprecated blob field stripped). -/
structure SyncPayload where
  assessment : Assessment
  zone_scores : List ZoneScore
  item_scores : List ItemScore
  photos : List Photo
  deriving Repr, DecidableEq

/-! JS truthiness helpers for the `x || d` defaults the routes apply:
an absent field or an empty string falls back to the default. -/

/-- `x || d` for a string-valued expression. -/
def jsOrStr (x : String) (d : String) : String :=
  if x = "" then d else x

/-- `x || null` for a nullable string. -/
def jsOrNull (x : Option String) : Option String :=
  match x with
  | some s => if s = "" then none else some s
  | none => none

/-! ## POST /api/sync (src/server/src/routes/sync.ts)

The five steps of the route's `db.transaction` body, each as a pure
state transformer. -/

/-- The `assessmentData` object of sync.ts applied to an existing row
(mutable fields only; id / created_at / assessor_signature untouched). -/
def applyAssessmentData (p : Assessment) (now : String) (row : SAssessment) :
    SAssessment :=
  { row with
    updated_at := now
    status := jsOrStr p.status "in_progress"
    property_type := jsOrStr p.property_type "single_family_residential"
    address := p.address
    city := p.city
    state := p.state
    zip := p.zip
    homeowner_name := p.homeowner_name
    homeowner_contact := jsOrStr p.homeowner_contact ""
    assessor_name := p.assessor_name
    assessor_badge_id := jsOrNull p.assessor_badge_id
    assessment_type := jsOrStr p.assessment_type "initial"
    weather_conditions := jsOrStr p.weather_conditions ""
    time_of_assessment := jsOrStr p.time_of_assessment "daytime"
    date_of_assessment := p.date_of_assessment
    overall_score := p.overall_score
    top_recommendations := p.top_recommendations
    quick_wins := p.quick_wins
    notes := jsOrStr p.notes ""
    synced_at := some now }

/-- Fresh row inserted when the assessment id is new to the server
(`created_at` from the payload when truthy, else now; signature column
takes its null default). -/
def newAssessmentRow (p : Assessment) (now : String) : SAssessment :=
  applyAssessmentData p now
    { id := p.id
      created_at := if p.created_at = "" then now else p.created_at
      updated_at := now
      status := ""
      property_type := ""
      address := ""
      city := ""
      state := ""
      zip := ""
      homeowner_name := ""
      homeowner_contact := ""
      assessor_name := ""
      assessor_badge_id := none
      assessment_type := ""
      weather_conditions := ""
      time_of_assessment := ""
      date_of_assessment := ""
      overall_score := none
      top_recommendations := []
      quick_wins := []
      notes := ""
      assessor_signature := none
      synced_at := none }

/-- Step 1: upsert the assessment row by id. -/
def syncStep1 (p : SyncPayload) (now : String) (s : ServerState) : ServerState :=
  let aid := p.assessment.id
  if s.assessments.any (fun a => a.id = aid) then
    { s with assessments := s.assessments.map (fun a =>
        if a.id = aid then applyAssessmentData p.assessment now a else a) }
  else
    { s with assessments := s.assessments ++ [newAssessmentRow p.assessment now] }

/-- Field mapping of a payload zone row at insert (sync.ts step 2);
`assessment_id` is forced to the payload's assessment id. -/
def mapPayloadZone (aid : String) (zs : ZoneScore) : ZoneScore :=
  { id := zs.id
    assessment_id := aid
    zone_key := zs.zone_key
    zone_name := zs.zone_name
    zone_order := zs.zone_order
    average_score := zs.average_score
    priority_findings := jsOrStr zs.priority_findings ""
    notes := jsOrStr zs.notes ""
    completed := zs.completed || false }

/-- Step 2: delete every remote ZoneScore of the assessment, then bulk
insert the payload's set. -/
def syncStep2 (p : SyncPayload) (s : ServerState) : ServerState :=
  let aid := p.assessment.id
  { s with zone_scores :=
      s.zone_scores.filter (fun z => z.assessment_id ≠ aid)
        ++ p.zone_scores.map (mapPayloadZone aid) }

/-- Field mapping of a payload item row at insert (sync.ts step 3). -/
def mapPayloadItem (aid : String) (is : ItemScore) : ItemScore :=
  { id := is.id
    assessment_id := aid
    zone_key := is.zone_key
    principle := is.principle
    item_text := is.item_text
    item_order := is.item_order
    score := is.score
    is_na := is.is_na || false
    notes := jsOrStr is.notes ""
    photo_ids := is.photo_ids }

/-- Step 3: delete every remote ItemScore of the assessment, then bulk
insert the payload's set. -/
def syncStep3 (p : SyncPayload) (s : ServerState) : ServerState :=
  let aid := p.assessment.id
  { s with item_scores :=
      s.item_scores.filter (fun i => i.assessment_id ≠ aid)
        ++ p.item_scores.map (mapPayloadItem aid) }

/-- One iteration of step 4: if the server knows the photo id, update
its mutable metadata; otherwise skip. -/
def syncStep4One (st : ServerState) (photo : Photo) : ServerState :=
  if st.photos.any (fun sp => sp.id = photo.id) then
    { st with photos := st.photos.map (fun sp =>
        if sp.id = photo.id then
          { sp with
            item_score_id := jsOrNull photo.item_score_id
            zone_key := photo.zone_key
            gps_lat := photo.gps_lat
            gps_lng := photo.gps_lng
            compass_heading := photo.compass_heading
            annotation_data := photo.annotation_data }
        else sp) }
  else st

/-- Step 4: for each payload photo already known to the server, update
its mutable metadata; photos the server does not know are skipped. -/
def syncStep4 (p : SyncPayload) (s : ServerState) : ServerState :=
  p.photos.foldl syncStep4One s

/-- One step of building the JS `Map` grouping items by zone key:
`byZone.set(key, (byZone.get(key) || []).push(item))` — an existing key
keeps its position, a new key is appended. -/
def insertByZone (acc : List (String × List ItemScore)) (it : ItemScore) :
    List (String × List ItemScore) :=
  if acc.any (fun p => p.1 = it.zone_key) then
    acc.map (fun p => if p.1 = it.zone_key then (p.1, p.2 ++ [it]) else p)
  else acc ++ [(it.zone_key, [it])]

/-- Grouping of the just-read item rows by zone key, in Map insertion
order (sync.ts step 5 and persistAllScores share this shape). -/
def groupByZone (items : List ItemScore) : List (String × List ItemScore) :=
  items.foldl insertByZone []

/-- The per-row update of one step-5 loop iteration: a zone row of the
assessment carrying the grouped key receives the recomputed average and
completion. -/
def updOneZone (aid : String) (entry : String × List ItemScore)
    (z : ZoneScore) : ZoneScore :=
  if z.assessment_id = aid && z.zone_key = entry.1 then
    { z with
      average_score := calculateZoneAverage entry.2
      completed := isZoneComplete entry.2 }
  else z

/-- The per-zone update loop of step 5: for each grouped zone in Map
order, set the recomputed average and completion on every zone row of
the assessment carrying that zone key. Only the zone table is touched,
so the loop is stated on it directly. -/
def updateZoneRows (aid : String) (byZone : List (String × List ItemScore))
    (tbl : List ZoneScore) : List ZoneScore :=
  byZone.foldl (fun t entry => t.map (updOneZone aid entry)) tbl

/-- Step 5: read back the assessment's item rows, group by zone,
overwrite each matching zone row with the recomputed average and
completion, then overwrite the assessment row's overall score. -/
def syncStep5 (p : SyncPayload) (now : String) (s : ServerState) : ServerState :=
  let aid := p.assessment.id
  let allItems := s.item_scores.filter (fun i => i.assessment_id = aid)
  let byZone := groupByZone allItems
  let s1 := { s with zone_scores := updateZoneRows aid byZone s.zone_scores }
  let overall := calculateOverallScore byZone
  { s1 with assessments := s1.assessments.map (fun a =>
      if a.id = aid then { a with overall_score := overall, synced_at := some now }
      else a) }

/-- The transaction body of POST /api/sync as its ordered step list. -/
def syncSteps (p : SyncPayload) (now : String) : List (ServerState → ServerState) :=
  [syncStep1 p now, syncStep2 p, syncStep3 p, syncStep4 p, syncStep5 p now]

/-- Sequential application of transaction steps. -/
def applySteps (fs : List (σ → σ)) (s : σ) : σ :=
  fs.foldl (fun st f => f st) s

/-- The database transaction contract: either every step runs and the
new state commits, or a step throws (fault injected at index `failAt`)
and nothing commits. -/
def runTransaction (fs : List (σ → σ)) (failAt : Option Nat) (s : σ) : Option σ :=
  match failAt with
  | none => some (applySteps fs s)
  | some k => if k < fs.length then none else some (applySteps fs s)

/-- Response of POST /api/sync. -/
structure SyncResponse where
  success : Bool
  synced_at : String
  deriving Repr, DecidableEq

/-- The whole POST /api/sync handler: on commit, the new server state
and the success response; on a transaction fault, the rolled-back
original state and no success response (the error handler answers). -/
def postSync (s : ServerState) (p : SyncPayload) (now : String)
    (failAt : Option Nat) : ServerState × Option SyncResponse :=
  match runTransaction (syncSteps p now) failAt s with
  | some s2 => (s2, some { success := true, synced_at := now })
  | none => (s, none)

/-- The committed (fault-free) sync transaction. -/
def syncTransaction (s : ServerState) (p : SyncPayload) (now : String) :
    ServerState :=
  applySteps (syncSteps p now) s

/-! ## Client local store and Push synchronizer (src/unnamed/part_009) -/

/-- The device's embedded store: each table as its row list. -/
structure LocalState where
  assessments : List Assessment
  zone_scores : List ZoneScore
  item_scores : List ItemScore
  photos : List Photo
  deriving Repr, DecidableEq

/-- Result record of syncAssessment. -/
structure SyncResult where
  success : Bool
  synced_at : String
  photosUploaded : Nat
  deriving Repr, DecidableEq

/-- `x || d` for an optional string-valued expression. -/
def jsOrOptStr (x : Option String) (d : String) : String :=
  match x with
  | some s => if s = "" then d else s
  | none => d

/-- Push: syncAssessment of the client sync service. Gathers the local
rows, POSTs them to /api/sync, on success uploads each unsynced photo
(outcome given by the `uploadOk` oracle; a failed upload is logged and
skipped) and finally updates the local bookkeeping fields. A missing
local assessment or a failed POST throws: the local store is returned
untouched with no result. `now` is the server clock, `nowIso` the
device clock at the bookkeeping update, `failAt` the injected fault of
the remote transaction. -/
def syncAssessment (loc : LocalState) (aid : String) (server : ServerState)
    (now : String) (nowIso : String) (failAt : Option Nat)
    (uploadOk : String → Bool) :
    LocalState × ServerState × Option SyncResult :=
  match loc.assessments.find? (fun a => a.id = aid) with
  | none => (loc, server, none)
  | some assessment =>
    let zoneScores := loc.zone_scores.filter (fun z => z.assessment_id = aid)
    let itemScores := loc.item_scores.filter (fun i => i.assessment_id = aid)
    let photos := loc.photos.filter (fun ph => ph.assessment_id = aid)
    let payload : SyncPayload :=
      { assessment := assessment
        zone_scores := zoneScores
        item_scores := itemScores
        photos := photos }
    match postSync server payload now failAt with
    | (server2, none) => (loc, server2, none)
    | (server2, some resp) =>
      let unsynced := photos.filter (fun ph => !ph.synced)
      let uploaded := unsynced.foldl
        (fun acc ph =>
          if uploadOk ph.id then
            (acc.1.map (fun q => if q.id = ph.id then { q with synced := true } else q),
             acc.2 + 1)
          else acc)
        (loc.photos, 0)
      let syncedAt := resp.synced_at
      let local2 : LocalState :=
        { loc with
          photos := uploaded.1
          assessments := loc.assessments.map (fun a =>
            if a.id = aid then
              { a with
                synced_at := some syncedAt
                status := if assessment.status = "completed" then "synced"
                          else assessment.status
                updated_at := nowIso }
            else a) }
      (local2, server2, some { success := true, synced_at := syncedAt,
                               photosUploaded := uploaded.2 })

/-! ## GET /api/assessments/:id (src/server/src/routes/assessments.ts) -/

/-- Photo metadata as returned by the full-assessment route: the photo
row without its blob_path column. -/
structure RespPhotoMeta where
  id : String
  assessment_id : String
  item_score_id : Option String
  zone_key : String
  captured_at : String
  filename : String
  mime_type : String
  gps_lat : Option ℚ
  gps_lng : Option ℚ
  compass_heading : Option ℚ
  annotation_data : Option String
  synced : Bool
  deriving Repr, DecidableEq

/-- Column selection of the photos query in GET /api/assessments/:id. -/
def stripBlobPath (p : SPhoto) : RespPhotoMeta :=
  { id := p.id
    assessment_id := p.assessment_id
    item_score_id := p.item_score_id
    zone_key := p.zone_key
    captured_at := p.captured_at
    filename := p.filename
    mime_type := p.mime_type
    gps_lat := p.gps_lat
    gps_lng := p.gps_lng
    compass_heading := p.compass_heading
    annotation_data := p.annotation_data
    synced := p.synced }

/-- Body of the GET /api/assessments/:id response. -/
structure FullResponse where
  assessment : SAssessment
  zone_scores : List ZoneScore
  item_scores : List ItemScore
  photos : List RespPhotoMeta
  deriving Repr, DecidableEq

/-- GET /api/assessments/:id: the assessment row plus all its zone,
item and photo-metadata rows; 404 (none) when the id is unknown. -/
def getAssessmentFull (s : ServerState) (id : String) : Option FullResponse :=
  match s.assessments.find? (fun a => a.id = id) with
  | none => none
  | some a =>
    some { assessment := a
           zone_scores := s.zone_scores.filter (fun z => z.assessment_id = id)
           item_scores := s.item_scores.filter (fun i => i.assessment_id = id)
           photos := (s.photos.filter (fun p => p.assessment_id = id)).map stripBlobPath }

/-! ## Pull synchronizer (pullAssessment, src/unnamed/part_009) -/

/-- Progress events emitted during a Pull. -/
structure PullProgress where
  phase : String
  current : Nat
  total : Nat
  message : String
  deriving Repr, DecidableEq

/-- Result record of pullAssessment. -/
structure PullResult where
  success : Bool
  assessmentId : String
  photosDownloaded : Nat
  deriving Repr, DecidableEq

/-- Dexie `put`: replace the row carrying the same primary key, else
append; `key` projects the primary key. -/
def dexiePut {α} (key : α → String) (tbl : List α) (x : α) : List α :=
  if tbl.any (fun t => key t = key x) then
    tbl.map (fun t => if key t = key x then x else t)
  else tbl ++ [x]

/-- Dexie `put` on the assessments table. -/
def putAssessmentRow (tbl : List Assessment) (a : Assessment) : List Assessment :=
  dexiePut (fun x => x.id) tbl a

/-- Dexie `put` on the zone_scores table. -/
def putZoneRow (tbl : List ZoneScore) (z : ZoneScore) : List ZoneScore :=
  dexiePut (fun x => x.id) tbl z

/-- Dexie `put` on the item_scores table. -/
def putItemRow (tbl : List ItemScore) (i : ItemScore) : List ItemScore :=
  dexiePut (fun x => x.id) tbl i

/-- Dexie `put` on the photos table. -/
def putPhotoRow (tbl : List Photo) (p : Photo) : List Photo :=
  dexiePut (fun x => x.id) tbl p

/-- Mapping of the response's base fields into the local Assessment put
by the Pull metadata transaction. -/
def respToLocalAssessment (a : SAssessment) : Assessment :=
  { id := a.id
    created_at := a.created_at
    updated_at := a.updated_at
    status := a.status
    property_type := a.property_type
    address := a.address
    city := a.city
    state := a.state
    zip := a.zip
    homeowner_name := a.homeowner_name
    homeowner_contact := a.homeowner_contact
    assessor_name := a.assessor_name
    assessor_badge_id := a.assessor_badge_id
    assessment_type := a.assessment_type
    weather_conditions := a.weather_conditions
    time_of_assessment := a.time_of_assessment
    date_of_assessment := a.date_of_assessment
    overall_score := a.overall_score
    top_recommendations := a.top_recommendations
    quick_wins := a.quick_wins
    notes := jsOrStr a.notes ""
    assessor_signature := a.assessor_signature
    synced_at := a.synced_at }

/-- Field mapping of a response zone row before bulkPut (pull step 2). -/
def pullMapZone (z : ZoneScore) : ZoneScore :=
  { id := z.id
    assessment_id := z.assessment_id
    zone_key := z.zone_key
    zone_name := z.zone_name
    zone_order := z.zone_order
    average_score := z.average_score
    priority_findings := jsOrStr z.priority_findings ""
    notes := jsOrStr z.notes ""
    completed := z.completed }

/-- Field mapping of a response item row before bulkPut (pull step 2). -/
def pullMapItem (i : ItemScore) : ItemScore :=
  { id := i.id
    assessment_id := i.assessment_id
    zone_key := i.zone_key
    principle := i.principle
    item_text := i.item_text
    item_order := i.item_order
    score := i.score
    is_na := i.is_na
    notes := jsOrStr i.notes ""
    photo_ids := i.photo_ids }

/-- Local photo row built from downloaded metadata and the data URL of
the fetched binary (pull step 3). -/
def pullMapPhoto (meta : RespPhotoMeta) (dataUrl : String) (nowIso : String) :
    Photo :=
  { id := meta.id
    assessment_id := meta.assessment_id
    item_score_id := jsOrNull meta.item_score_id
    zone_key := meta.zone_key
    captured_at := jsOrStr meta.captured_at nowIso
    data := dataUrl
    filename := jsOrStr meta.filename (meta.id ++ ".jpg")
    mime_type := jsOrStr meta.mime_type "image/jpeg"
    gps_lat := meta.gps_lat
    gps_lng := meta.gps_lng
    compass_heading := meta.compass_heading
    annotation_data := meta.annotation_data
    synced := true }

/-- The sequential download loop of pull step 3, one photo at a time in
metadata order: a failed fetch (none from the oracle, covering both a
non-ok response and a thrown error) is logged and skipped; a successful
one is converted to a data URL and put into the photos table. Returns
the photos table, the downloaded count and the emitted progress
events. `i` is the loop index, `n` the running downloaded count. -/
def pullPhotoLoop (fetchPhoto : String → Option String)
    (toDataUrl : String → String) (nowIso : String) (total : Nat) :
    List RespPhotoMeta → Nat → List Photo → Nat →
      List Photo × Nat × List PullProgress
  | [], _i, tbl, n => (tbl, n, [])
  | meta :: rest, i, tbl, n =>
    let ev : PullProgress :=
      { phase := "photos"
        current := i + 1
        total := total
        message := "Downloading photo " ++ toString (i + 1) ++ " of "
          ++ toString total ++ "..." }
    match fetchPhoto meta.id with
    | none =>
      let r := pullPhotoLoop fetchPhoto toDataUrl nowIso total rest (i + 1) tbl n
      (r.1, r.2.1, ev :: r.2.2)
    | some bytes =>
      let photo := pullMapPhoto meta (toDataUrl bytes) nowIso
      let r := pullPhotoLoop fetchPhoto toDataUrl nowIso total rest (i + 1)
        (putPhotoRow tbl photo) (n + 1)
      (r.1, r.2.1, ev :: r.2.2)

/-- Application of a fetched full assessment to the local store:
pull step 2 (one atomic metadata transaction: upsert the assessment,
delete-then-bulkPut the zone and item sets), then step 3 (clear the
assessment's local photos and download each binary sequentially —
the clearing is guarded by `totalPhotos > 0` exactly as in the source),
then the terminal progress event. -/
def pullApply (data : FullResponse) (fetchPhoto : String → Option String)
    (toDataUrl : String → String) (nowIso : String) (id : String)
    (loc : LocalState) : LocalState × PullResult × List PullProgress :=
  let ev0 : PullProgress :=
    { phase := "metadata", current := 0, total := 1,
      message := "Downloading assessment data..." }
  let ev1 : PullProgress :=
    { phase := "metadata", current := 1, total := 1,
      message := "Saving assessment data..." }
  let assessments2 := putAssessmentRow loc.assessments
    (respToLocalAssessment data.assessment)
  let zones2 :=
    (data.zone_scores.map pullMapZone).foldl putZoneRow
      (loc.zone_scores.filter (fun z => z.assessment_id ≠ id))
  let items2 :=
    (data.item_scores.map pullMapItem).foldl putItemRow
      (loc.item_scores.filter (fun i => i.assessment_id ≠ id))
  let totalPhotos := data.photos.length
  let phot :=
    if totalPhotos > 0 then
      pullPhotoLoop fetchPhoto toDataUrl nowIso totalPhotos data.photos 0
        (loc.photos.filter (fun p => p.assessment_id ≠ id)) 0
    else (loc.photos, 0, [])
  let evDone : PullProgress :=
    { phase := "done", current := totalPhotos, total := totalPhotos,
      message := "Download complete!" }
  ({ assessments := assessments2
     zone_scores := zones2
     item_scores := items2
     photos := phot.1 },
   { success := true, assessmentId := id, photosDownloaded := phot.2.1 },
   ev0 :: ev1 :: (phot.2.2 ++ [evDone]))

/-- Whole pullAssessment: fetch the full remote representation
(404 / transport failure aborts the Pull with the prior local copy
untouched), then apply it. -/
def pullAssessment (server : ServerState) (id : String)
    (fetchPhoto : String → Option String) (toDataUrl : String → String)
    (nowIso : String) (loc : LocalState) :
    Option (LocalState × PullResult × List PullProgress) :=
  match getAssessmentFull server id with
  | none => none
  | some data => some (pullApply data fetchPhoto toDataUrl nowIso id loc)

/-! ## Photo upload route (src/server/src/routes/photos.ts) -/

/-- A multipart POST /api/assessments/:assessmentId/photos request:
the binary field plus identity and associations. -/
structure UploadRequest where
  assessmentId : String
  body_id : Option String
  originalname : String
  mimetype : String
  bytes : String
  item_score_id : Option String
  zone_key : Option String
  captured_at : Option String
  gps_lat : Option ℚ
  gps_lng : Option ℚ
  compass_heading : Option ℚ
  annotation_data : Option String
  deriving Repr, DecidableEq

/-- On-disk photo file store: path to binary content. -/
abbrev FileStore := List (String × String)

/-- fs.writeFile: overwrite the file at the path, or create it. -/
def writeFile (files : FileStore) (path content : String) : FileStore :=
  if files.any (fun f => f.1 = path) then
    files.map (fun f => if f.1 = path then (f.1, content) else f)
  else files ++ [(path, content)]

/-- drizzle `db.insert(photos).values(row)` on the primary-keyed photos
table: appends the row, or raises a unique violation (none) when a row
with the same id already exists. -/
def insertPhotoRow (tbl : List SPhoto) (row : SPhoto) : Option (List SPhoto) :=
  if tbl.any (fun p => p.id = row.id) then none else some (tbl ++ [row])

/-- The metadata row the upload handler inserts. -/
def uploadRow (req : UploadRequest) (photoId filePath : String)
    (now : String) : SPhoto :=
  { id := photoId
    assessment_id := req.assessmentId
    item_score_id := jsOrNull req.item_score_id
    zone_key := jsOrOptStr req.zone_key ""
    captured_at := jsOrOptStr req.captured_at now
    blob_path := filePath
    filename := req.originalname
    mime_type := req.mimetype
    gps_lat := req.gps_lat
    gps_lng := req.gps_lng
    compass_heading := req.compass_heading
    annotation_data := req.annotation_data
    synced := true }

/-- The upload handler: derive the photo id (client-sent id, else a
fresh uuid) and file name, write the binary to disk, then insert the
metadata row. A duplicate id makes the insert throw after the file was
already written: the handler answers with an error (false) and the
table keeps its prior rows. `extname` models path.extname. -/
def postPhoto (files : FileStore) (s : ServerState) (req : UploadRequest)
    (freshId : String) (extname : String → String) (now : String) :
    FileStore × ServerState × Bool :=
  let photoId := jsOrOptStr req.body_id freshId
  let ext := jsOrStr (extname req.originalname) ".jpg"
  let filename := photoId ++ ext
  let filePath := req.assessmentId ++ "/" ++ filename
  let files2 := writeFile files filePath req.bytes
  let row := uploadRow req photoId filePath now
  match insertPhotoRow s.photos row with
  | some tbl => (files2, { s with photos := tbl }, true)
  | none => (files2, s, false)

/-! ## Spec-side characterizations of the aggregation rules

These definitions transcribe the spec sentences (not the code) and are
compared with the source-derived functions in the claim theorems. -/

/-- Spec §3 invariant 1: the scores entering an average are exactly
those of items whose score is not null and whose is_na is false. -/
def specQualifyingScores (items : List ItemScore) : List ℚ :=
  items.filterMap (fun s => if s.is_na then none else s.score)

/-- Spec §3 invariant 1: the mean over the qualifying scores, null —
never 0 — when no item qualifies. -/
def specMean (items : List ItemScore) : Option ℚ :=
  let qs := specQualifyingScores items
  if qs = [] then none else some (qs.sum / qs.length)

/-- Spec §3 invariant 3: the non-null per-zone means. -/
def specZoneMeans (zones : List (String × List ItemScore)) : List ℚ :=
  zones.filterMap (fun p => calculateZoneAverage p.2)

/-- Spec §3 invariant 3: the unweighted mean of the non-null per-zone
means, null when every zone mean is null. -/
def specOverall (zones : List (String × List ItemScore)) : Option ℚ :=
  let ms := specZoneMeans zones
  if ms = [] then none else some (ms.sum / ms.length)

/-! ### Helper lemmas on the aggregation engine -/

lemma foldl_add_getD (l : List ItemScore) (a : ℚ) :
    l.foldl (fun sum s => sum + s.score.getD 0) a
      = a + (l.map (fun s => s.score.getD 0)).sum := by
  induction l generalizing a with
  | nil => simp
  | cons x xs ih => simp [List.foldl_cons, ih, add_assoc]

lemma specQualifyingScores_eq (items : List ItemScore) :
    specQualifyingScores items
      = (getScoredItems items).map (fun s => s.score.getD 0) := by
  induction items with
  | nil => rfl
  | cons x xs ih =>
    cases hna : x.is_na <;> cases hx : x.score <;>
      simp [specQualifyingScores, getScoredItems, List.filterMap_cons,
        List.filter_cons, hna, hx] at ih ⊢ <;>
      simpa [specQualifyingScores, getScoredItems] using ih

lemma calculateAverage_eq_specMean (items : List ItemScore) :
    calculateAverage items = specMean items := by
  have hq := specQualifyingScores_eq items
  simp only [calculateAverage, specMean, hq]
  rcases h : getScoredItems items with _ | ⟨x, xs⟩
  · simp [h]
  · simp [h, foldl_add_getD, List.sum_cons]

lemma foldl_collect_means (zones : List (String × List ItemScore))
    (acc : List ℚ) :
    zones.foldl
        (fun acc p =>
          match calculateZoneAverage p.2 with
          | some avg => acc ++ [avg]
          | none => acc) acc
      = acc ++ specZoneMeans zones := by
  induction zones generalizing acc with
  | nil => simp [specZoneMeans]
  | cons z zs ih =>
    cases h : calculateZoneAverage z.2 <;>
      simp [specZoneMeans, List.filterMap_cons, h, ih]

lemma foldl_add_rat (l : List ℚ) (a : ℚ) :
    l.foldl (fun sum x => sum + x) a = a + l.sum := by
  induction l generalizing a with
  | nil => simp
  | cons y ys ih => simp [ih, add_assoc]

lemma calculateOverallScore_eq_specOverall
    (zones : List (String × List ItemScore)) :
    calculateOverallScore zones = specOverall zones := by
  simp only [calculateOverallScore, specOverall, foldl_collect_means,
    List.nil_append, foldl_add_rat]
  rcases h : specZoneMeans zones with _ | ⟨m, ms⟩
  · simp
  · simp [List.length_eq_zero]

lemma addressed_eq_filter_length (items : List ItemScore) :
    (getCompletionCounts items).addressed
      = (items.filter (fun s => s.score.isSome || s.is_na)).length := by
  simp only [getCompletionCounts]
  induction items with
  | nil => simp
  | cons x xs ih =>
    cases hna : x.is_na <;> cases hx : x.score.isSome <;>
      simp [List.filter_cons, hna, hx] at ih ⊢ <;> omega

lemma filter_length_eq_iff {α} (p : α → Bool) (l : List α) :
    (l.filter p).length = l.length ↔ ∀ a ∈ l, p a = true := by
  induction l with
  | nil => simp
  | cons x xs ih =>
    cases hx : p x
    · simp only [List.filter_cons, hx, if_neg, Bool.false_eq_true,
        not_false_eq_true, List.length_cons, List.mem_cons]
      constructor
      · intro h
        have hle := List.length_filter_le p xs
        omega
      · intro h
        exact absurd (h x (Or.inl rfl)) (by simp [hx])
    · simp [List.filter_cons, hx, ih]

/-- Sample ItemScore used by the concrete instances of the claims. -/
def exItem (sc : Option ℚ) (na : Bool) (zk : String) : ItemScore :=
  { id := "i-" ++ zk
    assessment_id := "a1"
    zone_key := zk
    principle := "p"
    item_text := "t"
    item_order := 0
    score := sc
    is_na := na
    notes := ""
    photo_ids := [] }

/-- C2: calculateAverage (and its alias calculateZoneAverage) averages
exactly the items whose score is not null and whose is_na is false, and
yields null — never 0 — when no item qualifies; items [5,4,null,NA,3]
give mean 4 and items [NA,NA] give null. -/
theorem claim_C2_average_filters_and_null_on_empty :
    (∀ items : List ItemScore,
        getScoredItems items
          = items.filter (fun s => decide (s.score ≠ none) && !s.is_na))
    ∧ (∀ items : List ItemScore, calculateAverage items = specMean items)
    ∧ (∀ items : List ItemScore, calculateZoneAverage items = calculateAverage items)
    ∧ calculateAverage [exItem (some 5) false "z", exItem (some 4) false "z",
        exItem none false "z", exItem (some 2) true "z",
        exItem (some 3) false "z"] = some 4
    ∧ calculateAverage [exItem none true "z", exItem none true "z"] = none := by
  refine ⟨fun items => ?_, calculateAverage_eq_specMean, fun _ => rfl, ?_, ?_⟩
  · unfold getScoredItems
    induction items with
    | nil => rfl
    | cons x xs ih =>
      cases hx : x.score <;>
        simp [List.filter_cons, hx, ih]
  · simp [calculateAverage, getScoredItems, exItem]
    norm_num
  · simp [calculateAverage, getScoredItems, exItem]

/-- C3: calculateOverallScore is the unweighted mean of the non-null
per-zone means (null when all zone means are null), is invariant under
permuting the zones and under adding zones whose own mean is null, and
two zones with means 4 and null give overall 4 (not 2). -/
theorem claim_C3_overall_mean_of_zone_means :
    (∀ zones : List (String × List ItemScore),
        calculateOverallScore zones = specOverall zones)
    ∧ (∀ z1 z2 : List (String × List ItemScore), z1.Perm z2 →
        calculateOverallScore z1 = calculateOverallScore z2)
    ∧ (∀ (zones : List (String × List ItemScore)) (k : String)
        (items : List ItemScore), calculateZoneAverage items = none →
        calculateOverallScore ((k, items) :: zones) = calculateOverallScore zones)
    ∧ calculateOverallScore [("a", [exItem (some 4) false "a"]),
        ("b", [exItem none true "b"])] = some 4 := by
  refine ⟨calculateOverallScore_eq_specOverall, ?_, ?_, ?_⟩
  · intro z1 z2 hperm
    rw [calculateOverallScore_eq_specOverall, calculateOverallScore_eq_specOverall]
    have hp : (specZoneMeans z1).Perm (specZoneMeans z2) := by
      unfold specZoneMeans
      exact hperm.filterMap _
    have hiff : specZoneMeans z1 = [] ↔ specZoneMeans z2 = [] := by
      rw [← List.length_eq_zero, ← List.length_eq_zero, hp.length_eq]
    simp only [specOverall]
    by_cases h : specZoneMeans z2 = []
    · rw [if_pos (hiff.mpr h), if_pos h]
    · rw [if_neg (fun hh => h (hiff.mp hh)), if_neg h, hp.sum_eq, hp.length_eq]
  · intro zones k items h
    rw [calculateOverallScore_eq_specOverall, calculateOverallScore_eq_specOverall]
    have hsz : specZoneMeans ((k, items) :: zones) = specZoneMeans zones := by
      unfold specZoneMeans
      rw [List.filterMap_cons]
      simp [h]
    simp only [specOverall, hsz]
  · simp [calculateOverallScore, calculateZoneAverage, calculateAverage,
      getScoredItems, exItem]

/-- Witness for the hypothesized parts of the C3 theorem, at the
two-zone example: swapping the zones and dropping a null-mean zone. -/
theorem claim_C3_overall_mean_of_zone_means_witness :
    calculateOverallScore [("a", [exItem (some 4) false "a"]),
        ("b", [exItem none true "b"])]
      = calculateOverallScore [("b", [exItem none true "b"]),
        ("a", [exItem (some 4) false "a"])]
    ∧ calculateOverallScore [("b", [exItem none true "b"]),
        ("a", [exItem (some 4) false "a"])]
      = calculateOverallScore [("a", [exItem (some 4) false "a"])] :=
  ⟨claim_C3_overall_mean_of_zone_means.2.1 _ _
      (List.Perm.swap _ _ _).symm,
   claim_C3_overall_mean_of_zone_means.2.2.1 _ _ _
      (by simp [calculateZoneAverage, calculateAverage, getScoredItems, exItem])⟩

/-- C7: isZoneComplete is true iff the zone is non-empty and every item
is scored or N/A — equivalently addressed = total with total positive —
false on the empty list, true on [NA,NA]. -/
theorem claim_C7_isZoneComplete_iff :
    (∀ items : List ItemScore,
        (isZoneComplete items = true ↔
          items ≠ [] ∧ ∀ s ∈ items, s.score ≠ none ∨ s.is_na = true)
        ∧ (isZoneComplete items = true ↔
            (getCompletionCounts items).addressed = (getCompletionCounts items).total
              ∧ 0 < (getCompletionCounts items).total))
    ∧ isZoneComplete ([] : List ItemScore) = false
    ∧ isZoneComplete [exItem none true "z", exItem none true "z"] = true := by
  refine ⟨fun items => ⟨?_, ?_⟩, rfl, by simp [isZoneComplete, exItem]⟩
  · unfold isZoneComplete
    rcases items with _ | ⟨x, xs⟩
    · simp
    · simp only [List.length_cons, Nat.succ_ne_zero, if_neg, ne_eq,
        List.cons_ne_nil, not_false_eq_true, true_and, List.all_eq_true]
      constructor
      · intro h s hs
        have := h s hs
        cases hx : s.score <;> simp [hx] at this ⊢
        exact this
      · intro h s hs
        have := h s hs
        cases hx : s.score <;> simp [hx] at this ⊢
        exact this
  · have haddr := addressed_eq_filter_length items
    have htot : (getCompletionCounts items).total = items.length := rfl
    rw [haddr, htot]
    unfold isZoneComplete
    rcases items with _ | ⟨x, xs⟩
    · simp
    · rw [if_neg (by simp)]
      rw [filter_length_eq_iff (fun s => s.score.isSome || s.is_na) (x :: xs)]
      simp [List.all_eq_true]

/-! ### Pull photo-phase lemmas -/

lemma dexiePut_mem {α} (key : α → String) (tbl : List α) (x : α) :
    ∀ y ∈ dexiePut key tbl x, y ∈ tbl ∨ y = x := by
  intro y hy
  unfold dexiePut at hy
  split at hy
  · rcases List.mem_map.mp hy with ⟨t, ht, heq⟩
    by_cases h : key t = key x
    · right
      rw [if_pos h] at heq
      exact heq.symm
    · left
      rw [if_neg h] at heq
      exact heq ▸ ht
  · rcases List.mem_append.mp hy with h | h
    · exact Or.inl h
    · right
      simpa using h

lemma pullPhotoLoop_count (fetch : String → Option String)
    (toD : String → String) (now : String) (total : Nat) :
    ∀ (metas : List RespPhotoMeta) (i : Nat) (tbl : List Photo) (n : Nat),
      (pullPhotoLoop fetch toD now total metas i tbl n).2.1
        = n + (metas.filter (fun m => (fetch m.id).isSome)).length := by
  intro metas
  induction metas with
  | nil => intro i tbl n; simp [pullPhotoLoop]
  | cons m rest ih =>
    intro i tbl n
    cases h : fetch m.id <;>
      simp [pullPhotoLoop, h, List.filter_cons, ih] <;> omega

lemma pullPhotoLoop_mem (fetch : String → Option String)
    (toD : String → String) (now : String) (total : Nat) :
    ∀ (metas : List RespPhotoMeta) (i : Nat) (tbl : List Photo) (n : Nat),
      ∀ ph ∈ (pullPhotoLoop fetch toD now total metas i tbl n).1,
        ph ∈ tbl ∨ ∃ m ∈ metas, ∃ b, fetch m.id = some b
          ∧ ph = pullMapPhoto m (toD b) now := by
  intro metas
  induction metas with
  | nil =>
    intro i tbl n ph hph
    exact Or.inl (by simpa [pullPhotoLoop] using hph)
  | cons m rest ih =>
    intro i tbl n ph hph
    cases h : fetch m.id with
    | none =>
      simp only [pullPhotoLoop, h] at hph
      rcases ih (i + 1) tbl n ph hph with hin | ⟨m2, hm2, b, hb, heq⟩
      · exact Or.inl hin
      · exact Or.inr ⟨m2, List.mem_cons_of_mem _ hm2, b, hb, heq⟩
    | some bytes =>
      simp only [pullPhotoLoop, h] at hph
      rcases ih (i + 1) (putPhotoRow tbl (pullMapPhoto m (toD bytes) now)) (n + 1)
          ph hph with hin | ⟨m2, hm2, b, hb, heq⟩
      · rcases dexiePut_mem _ _ _ ph hin with hin2 | hx
        · exact Or.inl hin2
        · exact Or.inr ⟨m, List.mem_cons_self m rest, bytes, h, hx⟩
      · exact Or.inr ⟨m2, List.mem_cons_of_mem _ hm2, b, hb, heq⟩

/-! ### Concrete fixtures for the pull claims -/

/-- Sample server assessment row. -/
def exSAssessment : SAssessment :=
  { id := "a1"
    created_at := "2026-01-01"
    updated_at := "2026-01-02"
    status := "completed"
    property_type := "single_family_residential"
    address := "1 Main St"
    city := "Springfield"
    state := "IL"
    zip := "62701"
    homeowner_name := "H Owner"
    homeowner_contact := ""
    assessor_name := "A Name"
    assessor_badge_id := none
    assessment_type := "initial"
    weather_conditions := ""
    time_of_assessment := "daytime"
    date_of_assessment := "2026-01-01"
    overall_score := none
    top_recommendations := []
    quick_wins := []
    notes := ""
    assessor_signature := none
    synced_at := none }

/-- Sample remote photo metadata. -/
def exMeta (pid : String) : RespPhotoMeta :=
  { id := pid
    assessment_id := "a1"
    item_score_id := none
    zone_key := "z"
    captured_at := "t0"
    filename := pid ++ ".jpg"
    mime_type := "image/jpeg"
    gps_lat := none
    gps_lng := none
    compass_heading := none
    annotation_data := none
    synced := true }

/-- Remote response carrying three photos. -/
def exResp3 : FullResponse :=
  { assessment := exSAssessment
    zone_scores := []
    item_scores := []
    photos := [exMeta "p1", exMeta "p2", exMeta "p3"] }

/-- Remote response carrying zero photos. -/
def exRespNoPhotos : FullResponse :=
  { assessment := exSAssessment
    zone_scores := []
    item_scores := []
    photos := [] }

/-- Fetch oracle on which exactly photo p2 fails to download. -/
def exFetchFail2 (pid : String) : Option String :=
  if pid = "p2" then none else some "BYTES"

/-- Empty local store. -/
def emptyLocal : LocalState :=
  { assessments := [], zone_scores := [], item_scores := [], photos := [] }

/-- A pre-existing local photo of assessment a1. -/
def stalePhoto : Photo :=
  { id := "old1"
    assessment_id := "a1"
    item_score_id := none
    zone_key := "z"
    captured_at := "t"
    data := "stale-data-url"
    filename := "old.jpg"
    mime_type := "image/jpeg"
    gps_lat := none
    gps_lng := none
    compass_heading := none
    annotation_data := none
    synced := false }

/-- Local store holding only that stale photo. -/
def staleLocal : LocalState :=
  { assessments := [], zone_scores := [], item_scores := [], photos := [stalePhoto] }

/-- C5: a single photo download failure during the Pull photo phase is
skipped: the Pull still reports success, with photosDownloaded equal to
the number of successfully fetched (hence stored) photos; with photo 2
of 3 failing, the result is success with photosDownloaded = 2. -/
theorem claim_C5_pull_photo_fault_isolation :
    (∀ (data : FullResponse) (fetch : String → Option String)
        (toD : String → String) (nowIso id : String) (loc : LocalState),
        ((pullApply data fetch toD nowIso id loc).2.1).success = true
        ∧ ((pullApply data fetch toD nowIso id loc).2.1).photosDownloaded
            = (data.photos.filter (fun m => (fetch m.id).isSome)).length)
    ∧ (pullApply exResp3 exFetchFail2 (fun b => b) "now" "a1" emptyLocal).2.1
        = { success := true, assessmentId := "a1", photosDownloaded := 2 } := by
  refine ⟨fun data fetch toD nowIso id loc => ⟨rfl, ?_⟩, by decide⟩
  show (pullApply data fetch toD nowIso id loc).2.1.photosDownloaded = _
  unfold pullApply
  rcases hph : data.photos with _ | ⟨m, ms⟩
  · simp
  · simp only [hph, List.length_cons]
    rw [if_pos (Nat.succ_pos _)]
    simp [pullPhotoLoop_count]

/-- C8 counterexample: a Pull whose metadata phase succeeds but whose
remote reports zero photos leaves a pre-existing local photo row of the
same assessment in place — the local photo set is not reduced to the
(empty) remote photo set, because the delete is guarded by
totalPhotos > 0. -/
theorem claim_C8_counterexample_zero_photo_pull :
    exRespNoPhotos.photos = []
    ∧ ((pullApply exRespNoPhotos (fun _ => none) (fun b => b) "now" "a1"
          staleLocal).1).photos = [stalePhoto]
    ∧ stalePhoto.assessment_id = "a1" := by
  decide

/-- C8 (amended): when the remote reports at least one photo, every
pre-existing local Photo row of the assessment is deleted before the
sequential downloads, so each post-Pull local photo of the assessment
carries the id of some remote photo; when the remote reports zero
photos, the local photo table is left untouched. -/
theorem claim_C8_amended_delete_guarded_by_total :
    ∀ (data : FullResponse) (fetch : String → Option String)
      (toD : String → String) (nowIso id : String) (loc : LocalState),
      (data.photos ≠ [] →
        ∀ ph ∈ ((pullApply data fetch toD nowIso id loc).1).photos,
          ph.assessment_id = id → ∃ m ∈ data.photos, m.id = ph.id)
      ∧ (data.photos = [] →
          ((pullApply data fetch toD nowIso id loc).1).photos = loc.photos) := by
  intro data fetch toD nowIso id loc
  constructor
  · intro hne ph hph hassess
    unfold pullApply at hph
    rcases hd : data.photos with _ | ⟨m, ms⟩
    · exact absurd hd hne
    · rw [hd] at hph
      simp only [List.length_cons] at hph
      rw [if_pos (Nat.succ_pos _)] at hph
      rcases pullPhotoLoop_mem fetch toD nowIso _ _ _ _ _ ph hph with hin | hmap
      · have := List.of_mem_filter hin
        simp [hassess] at this
      · rcases hmap with ⟨m2, hm2, b, _hb, heq⟩
        refine ⟨m2, hd ▸ hm2, ?_⟩
        rw [heq]
        rfl
  · intro hnil
    unfold pullApply
    simp [hnil]

/-- Witness for the C8 amended theorem: a one-photo remote pull yields
a local photo whose id is remote-known, and a zero-photo remote pull
leaves the stale local photo table unchanged. -/
theorem claim_C8_amended_delete_guarded_by_total_witness :
    (∃ m ∈ exResp3.photos,
        m.id = (pullMapPhoto (exMeta "p1") "BYTES" "now").id)
    ∧ ((pullApply exRespNoPhotos (fun _ => none) (fun b => b) "now" "a1"
          staleLocal).1).photos = staleLocal.photos := by
  constructor
  · exact (claim_C8_amended_delete_guarded_by_total exResp3 exFetchFail2
      (fun b => b) "now" "a1" emptyLocal).1 (by decide)
      (pullMapPhoto (exMeta "p1") "BYTES" "now") (by decide) (by decide)
  · exact (claim_C8_amended_delete_guarded_by_total exRespNoPhotos
      (fun _ => none) (fun b => b) "now" "a1" staleLocal).2 rfl

/-! ### Fixtures and claims for Push failure and bookkeeping -/

/-- Empty remote store. -/
def emptyServer : ServerState :=
  { assessments := [], zone_scores := [], item_scores := [], photos := [] }

/-- Sample client assessment in status completed. -/
def exClientAssessment : Assessment :=
  { id := "a1"
    created_at := "2026-01-01"
    updated_at := "2026-01-02"
    status := "completed"
    property_type := "single_family_residential"
    address := "1 Main St"
    city := "Springfield"
    state := "IL"
    zip := "62701"
    homeowner_name := "H Owner"
    homeowner_contact := ""
    assessor_name := "A Name"
    assessor_badge_id := none
    assessment_type := "initial"
    weather_conditions := ""
    time_of_assessment := "daytime"
    date_of_assessment := "2026-01-01"
    overall_score := none
    top_recommendations := []
    quick_wins := []
    notes := ""
    assessor_signature := none
    synced_at := none }

/-- Local store holding that one assessment. -/
def exLocal1 : LocalState :=
  { assessments := [exClientAssessment], zone_scores := [], item_scores := [],
    photos := [] }

/-- C4: a fault in any of the five remote transaction steps rolls the
whole Push back: the remote store (its Assessment, ZoneScore and
ItemScore tables included) is exactly as before the call, the Push
reports failure, and the device's local copy is untouched. -/
theorem claim_C4_failed_push_rolls_back_everything :
    ∀ (loc : LocalState) (aid : String) (server : ServerState)
      (now nowIso : String) (uploadOk : String → Bool) (k : Nat),
      k < 5 →
      syncAssessment loc aid server now nowIso (some k) uploadOk
        = (loc, server, none) := by
  intro loc aid server now nowIso uploadOk k hk
  unfold syncAssessment
  cases hfind : loc.assessments.find? (fun a => a.id = aid) with
  | none => rfl
  | some a =>
    simp only [postSync, runTransaction, syncSteps]
    rw [if_pos (by simpa using hk)]

/-- Witness for C4 at a concrete store with the fault injected in
step 3 (the item replace). -/
theorem claim_C4_failed_push_rolls_back_everything_witness :
    syncAssessment exLocal1 "a1" emptyServer "T" "T2" (some 2) (fun _ => true)
      = (exLocal1, emptyServer, none) :=
  claim_C4_failed_push_rolls_back_everything exLocal1 "a1" emptyServer "T" "T2"
    (fun _ => true) 2 (by decide)

/-- C10: the post-Push local bookkeeping update rewrites exactly three
fields of the pushed Assessment row — synced_at to the server-returned
stamp, status to synced iff it was completed (any other status value is
written back unchanged), updated_at to the device clock — leaving every
other Assessment field, every other Assessment row, and the local
ZoneScore and ItemScore tables untouched. -/
theorem claim_C10_bookkeeping_update_frame :
    ∀ (loc : LocalState) (aid : String) (server : ServerState)
      (now nowIso : String) (uploadOk : String → Bool) (a : Assessment),
      loc.assessments.find? (fun x => x.id = aid) = some a →
      (syncAssessment loc aid server now nowIso none uploadOk).1.zone_scores
          = loc.zone_scores
      ∧ (syncAssessment loc aid server now nowIso none uploadOk).1.item_scores
          = loc.item_scores
      ∧ (syncAssessment loc aid server now nowIso none uploadOk).1.assessments
          = loc.assessments.map (fun x =>
              if x.id = aid then
                { x with
                  synced_at := some now
                  status := if a.status = "completed" then "synced" else a.status
                  updated_at := nowIso }
              else x) := by
  intro loc aid server now nowIso uploadOk a hfind
  unfold syncAssessment
  rw [hfind]
  simp only [postSync, runTransaction]
  exact ⟨trivial, trivial, trivial⟩

/-- Witness for C10: the completed sample assessment comes back synced
with the server timestamp, all tables otherwise untouched. -/
theorem claim_C10_bookkeeping_update_frame_witness :
    (syncAssessment exLocal1 "a1" emptyServer "T" "T2" none (fun _ => true)).1.zone_scores
        = exLocal1.zone_scores
    ∧ (syncAssessment exLocal1 "a1" emptyServer "T" "T2" none (fun _ => true)).1.item_scores
        = exLocal1.item_scores
    ∧ (syncAssessment exLocal1 "a1" emptyServer "T" "T2" none (fun _ => true)).1.assessments
        = exLocal1.assessments.map (fun x =>
            if x.id = "a1" then
              { x with
                synced_at := some "T"
                status := if exClientAssessment.status = "completed" then "synced"
                          else exClientAssessment.status
                updated_at := "T2" }
            else x) :=
  claim_C10_bookkeeping_update_frame exLocal1 "a1" emptyServer "T" "T2"
    (fun _ => true) exClientAssessment (by decide)

/-! ### Photo upload route claims -/

/-- Content of the file at a path, if present. -/
def readFile (files : FileStore) (path : String) : Option String :=
  (files.find? (fun f => f.1 = path)).map (fun f => f.2)

lemma readFile_writeFile :
    ∀ (files : FileStore) (path c : String),
      readFile (writeFile files path c) path = some c := by
  intro files path c
  induction files with
  | nil => simp [writeFile, readFile]
  | cons f fs ih =>
    by_cases hf : f.1 = path
    · simp [writeFile, List.any_cons, hf, readFile, List.find?_cons]
    · by_cases hfs : fs.any (fun x => x.1 = path)
      · have ih2 := ih
        simp [writeFile, hfs, readFile] at ih2
        simp [writeFile, List.any_cons, hf, hfs, readFile, List.find?_cons, ih2]
      · have ih2 := ih
        simp [writeFile, hfs, readFile] at ih2
        simp [writeFile, List.any_cons, hf, hfs, readFile, List.find?_cons, ih2]

/-- Sample photo upload request carrying a client-chosen photo id. -/
def exUpload (bytes : String) : UploadRequest :=
  { assessmentId := "a1"
    body_id := some "p1"
    originalname := "img.jpg"
    mimetype := "image/jpeg"
    bytes := bytes
    item_score_id := none
    zone_key := some "z"
    captured_at := some "t"
    gps_lat := none
    gps_lng := none
    compass_heading := none
    annotation_data := none }

/-- C9 counterexample: uploading the same photo id twice makes the
second request fail (the insert hits the photos primary key), instead
of succeeding as an overwrite. -/
theorem claim_C9_counterexample_retry_fails :
    (postPhoto [] emptyServer (exUpload "B1") "f1" (fun _ => ".jpg") "T").2.2 = true
    ∧ (postPhoto
          (postPhoto [] emptyServer (exUpload "B1") "f1" (fun _ => ".jpg") "T").1
          ((postPhoto [] emptyServer (exUpload "B1") "f1" (fun _ => ".jpg") "T").2.1)
          (exUpload "B2") "f2" (fun _ => ".jpg") "T").2.2 = false := by
  decide

lemma postPhoto_eq (files : FileStore) (s : ServerState) (req : UploadRequest)
    (fid : String) (extname : String → String) (now : String) :
    postPhoto files s req fid extname now
      = (writeFile files
            (req.assessmentId ++ "/"
              ++ (jsOrOptStr req.body_id fid
                    ++ jsOrStr (extname req.originalname) ".jpg"))
            req.bytes,
         if s.photos.any (fun p => p.id = jsOrOptStr req.body_id fid) then s
         else { s with photos := s.photos
            ++ [uploadRow req (jsOrOptStr req.body_id fid)
                  (req.assessmentId ++ "/"
                    ++ (jsOrOptStr req.body_id fid
                          ++ jsOrStr (extname req.originalname) ".jpg")) now] },
         !s.photos.any (fun p => p.id = jsOrOptStr req.body_id fid)) := by
  by_cases h : s.photos.any (fun p => p.id = jsOrOptStr req.body_id fid)
  · simp [postPhoto, insertPhotoRow, uploadRow, h]
  · simp [postPhoto, insertPhotoRow, uploadRow, h]

/-- C9 (amended): re-uploading a photo with the same stable id leaves
the server with exactly one metadata row for that id and one stored
binary at the photo's path — the second request overwrites the binary
on disk (which is written before the insert) but then fails on the
metadata primary key instead of overwriting the row. -/
theorem claim_C9_amended_retry_overwrites_file_but_fails :
    ∀ (files : FileStore) (s : ServerState) (req1 req2 : UploadRequest)
      (fid1 fid2 : String) (extname : String → String) (now : String)
      (pid : String),
      req1.body_id = some pid → req2.body_id = some pid → pid ≠ "" →
      req2.assessmentId = req1.assessmentId →
      extname req2.originalname = extname req1.originalname →
      (∀ p ∈ s.photos, p.id ≠ pid) →
      (postPhoto files s req1 fid1 extname now).2.2 = true
      ∧ (postPhoto (postPhoto files s req1 fid1 extname now).1
            ((postPhoto files s req1 fid1 extname now).2.1)
            req2 fid2 extname now).2.2 = false
      ∧ (postPhoto (postPhoto files s req1 fid1 extname now).1
            ((postPhoto files s req1 fid1 extname now).2.1)
            req2 fid2 extname now).2.1
          = (postPhoto files s req1 fid1 extname now).2.1
      ∧ (((postPhoto (postPhoto files s req1 fid1 extname now).1
            ((postPhoto files s req1 fid1 extname now).2.1)
            req2 fid2 extname now).2.1).photos.filter
              (fun p => p.id = pid)).length = 1
      ∧ readFile
          (postPhoto (postPhoto files s req1 fid1 extname now).1
            ((postPhoto files s req1 fid1 extname now).2.1)
            req2 fid2 extname now).1
          (req1.assessmentId ++ "/"
            ++ (pid ++ jsOrStr (extname req1.originalname) ".jpg"))
        = some req2.bytes := by
  intro files s req1 req2 fid1 fid2 extname now pid h1 h2 hpid hsameA hsameE hfresh
  have hid1 : jsOrOptStr req1.body_id fid1 = pid := by
    rw [h1]
    simp [jsOrOptStr, hpid]
  have hid2 : jsOrOptStr req2.body_id fid2 = pid := by
    rw [h2]
    simp [jsOrOptStr, hpid]
  have hnone : s.photos.any (fun p => p.id = pid) = false := by
    rw [List.any_eq_false]
    intro p hp
    simp [hfresh p hp]
  rw [postPhoto_eq, postPhoto_eq, hid1, hid2, hsameA, hsameE, hnone]
  have hany2 : (s.photos
      ++ [uploadRow req1 pid
            (req1.assessmentId ++ "/"
              ++ (pid ++ jsOrStr (extname req1.originalname) ".jpg")) now]).any
        (fun p => p.id = pid) = true := by
    rw [List.any_append]
    simp [uploadRow]
  simp only [Bool.false_eq_true, if_neg, not_false_eq_true, Bool.not_false, hany2,
    if_pos, Bool.not_true]
  refine ⟨trivial, trivial, trivial, ?_, readFile_writeFile _ _ _⟩
  rw [List.filter_append]
  rw [List.filter_eq_nil_iff.mpr (fun p hp => by simp [hfresh p hp])]
  simp [uploadRow]

/-- Witness for the C9 amended theorem at the concrete double upload. -/
theorem claim_C9_amended_retry_overwrites_file_but_fails_witness :
    (postPhoto [] emptyServer (exUpload "B1") "f1" (fun _ => ".jpg") "T").2.2 = true
    ∧ (((postPhoto (postPhoto [] emptyServer (exUpload "B1") "f1" (fun _ => ".jpg") "T").1
          ((postPhoto [] emptyServer (exUpload "B1") "f1" (fun _ => ".jpg") "T").2.1)
          (exUpload "B2") "f2" (fun _ => ".jpg") "T").2.1).photos.filter
            (fun p => p.id = "p1")).length = 1 := by
  have h := claim_C9_amended_retry_overwrites_file_but_fails [] emptyServer
    (exUpload "B1") (exUpload "B2") "f1" "f2" (fun _ => ".jpg") "T" "p1"
    rfl rfl (by decide) rfl rfl (by intro p hp; simp [emptyServer] at hp)
  exact ⟨h.1, h.2.2.2.1⟩

/-! ### Frame lemmas for the sync transaction steps -/

lemma jsOrStr_empty_default (x : String) : jsOrStr x "" = x := by
  unfold jsOrStr
  by_cases h : x = "" <;> simp [h]

lemma syncStep1_zone_scores (p : SyncPayload) (now : String) (s : ServerState) :
    (syncStep1 p now s).zone_scores = s.zone_scores := by
  by_cases h : s.assessments.any (fun a => a.id = p.assessment.id) <;>
    simp [syncStep1, h]

lemma syncStep1_item_scores (p : SyncPayload) (now : String) (s : ServerState) :
    (syncStep1 p now s).item_scores = s.item_scores := by
  by_cases h : s.assessments.any (fun a => a.id = p.assessment.id) <;>
    simp [syncStep1, h]

lemma syncStep4One_assessments (st : ServerState) (ph : Photo) :
    (syncStep4One st ph).assessments = st.assessments := by
  unfold syncStep4One
  split <;> rfl

lemma syncStep4One_zone_scores (st : ServerState) (ph : Photo) :
    (syncStep4One st ph).zone_scores = st.zone_scores := by
  unfold syncStep4One
  split <;> rfl

lemma syncStep4One_item_scores (st : ServerState) (ph : Photo) :
    (syncStep4One st ph).item_scores = st.item_scores := by
  unfold syncStep4One
  split <;> rfl

lemma syncStep4_assessments (p : SyncPayload) (s : ServerState) :
    (syncStep4 p s).assessments = s.assessments := by
  unfold syncStep4
  induction p.photos generalizing s with
  | nil => rfl
  | cons ph rest ih => rw [List.foldl_cons, ih, syncStep4One_assessments]

lemma syncStep4_zone_scores (p : SyncPayload) (s : ServerState) :
    (syncStep4 p s).zone_scores = s.zone_scores := by
  unfold syncStep4
  induction p.photos generalizing s with
  | nil => rfl
  | cons ph rest ih => rw [List.foldl_cons, ih, syncStep4One_zone_scores]

lemma syncStep4_item_scores (p : SyncPayload) (s : ServerState) :
    (syncStep4 p s).item_scores = s.item_scores := by
  unfold syncStep4
  induction p.photos generalizing s with
  | nil => rfl
  | cons ph rest ih => rw [List.foldl_cons, ih, syncStep4One_item_scores]

/-- mapPayloadItem only rewrites assessment_id: every other field of
the device's item row survives the insert mapping unchanged. -/
lemma mapPayloadItem_eq (aid : String) (i : ItemScore) :
    mapPayloadItem aid i = { i with assessment_id := aid } := by
  unfold mapPayloadItem
  rw [jsOrStr_empty_default, Bool.or_false]

/-- mapPayloadZone only rewrites assessment_id. -/
lemma mapPayloadZone_eq (aid : String) (z : ZoneScore) :
    mapPayloadZone aid z = { z with assessment_id := aid } := by
  unfold mapPayloadZone
  rw [jsOrStr_empty_default, jsOrStr_empty_default, Bool.or_false]

/-- The Pull field mapping of an item row is the identity. -/
lemma pullMapItem_id (i : ItemScore) : pullMapItem i = i := by
  unfold pullMapItem
  rw [jsOrStr_empty_default]

/-- The Pull field mapping of a zone row is the identity. -/
lemma pullMapZone_id (z : ZoneScore) : pullMapZone z = z := by
  unfold pullMapZone
  rw [jsOrStr_empty_default, jsOrStr_empty_default]

/-- Rows of the assessment, re-read after the replace, are exactly the
just-inserted rows. -/
lemma filter_reinserted (l w : List ItemScore) (aid : String)
    (hw : ∀ i ∈ w, i.assessment_id = aid) :
    ((l.filter (fun i => i.assessment_id ≠ aid)) ++ w).filter
        (fun i => i.assessment_id = aid) = w := by
  rw [List.filter_append]
  rw [List.filter_eq_nil_iff.mpr (fun i hi => by
    have := List.of_mem_filter hi
    simp at this
    simp [this])]
  rw [List.filter_eq_self.mpr (fun i hi => by simp [hw i hi])]
  simp

lemma filter_reinserted_zones (l w : List ZoneScore) (aid : String)
    (hw : ∀ z ∈ w, z.assessment_id = aid) :
    ((l.filter (fun z => z.assessment_id ≠ aid)) ++ w).filter
        (fun z => z.assessment_id = aid) = w := by
  rw [List.filter_append]
  rw [List.filter_eq_nil_iff.mpr (fun z hz => by
    have := List.of_mem_filter hz
    simp at this
    simp [this])]
  rw [List.filter_eq_self.mpr (fun z hz => by simp [hw z hz])]
  simp

/-! ### groupByZone invariants -/

lemma insertByZone_inv (acc : List (String × List ItemScore))
    (pre : List ItemScore) (it : ItemScore)
    (h1 : (acc.map Prod.fst).Nodup)
    (h2 : ∀ e ∈ acc, e.2 = pre.filter (fun i => i.zone_key = e.1))
    (h3 : ∀ k, (∃ e ∈ acc, e.1 = k) ↔ ∃ i ∈ pre, i.zone_key = k) :
    (((insertByZone acc it).map Prod.fst).Nodup)
    ∧ (∀ e ∈ insertByZone acc it,
        e.2 = (pre ++ [it]).filter (fun i => i.zone_key = e.1))
    ∧ (∀ k, (∃ e ∈ insertByZone acc it, e.1 = k)
        ↔ ∃ i ∈ pre ++ [it], i.zone_key = k) := by
  by_cases hany : acc.any (fun p => p.1 = it.zone_key)
  · unfold insertByZone
    rw [if_pos hany]
    have hfst : ∀ e ∈ acc,
        ((fun p : String × List ItemScore =>
          if p.1 = it.zone_key then (p.1, p.2 ++ [it]) else p) e).1 = e.1 := by
      intro e _
      by_cases he : e.1 = it.zone_key <;> simp [he]
    have hkeys : (acc.map (fun p =>
        if p.1 = it.zone_key then (p.1, p.2 ++ [it]) else p)).map Prod.fst
          = acc.map Prod.fst := by
      rw [List.map_map]
      exact List.map_congr_left hfst
    refine ⟨hkeys ▸ h1, ?_, ?_⟩
    · intro e' he'
      obtain ⟨e, he, heq⟩ := List.mem_map.mp he'
      by_cases hk : e.1 = it.zone_key
      · rw [if_pos hk] at heq
        subst heq
        rw [List.filter_append]
        have hsing : [it].filter (fun i => i.zone_key = e.1) = [it] := by
          simp [hk]
        rw [hsing, ← h2 e he]
      · rw [if_neg hk] at heq
        subst heq
        rw [List.filter_append]
        have hsing : [it].filter (fun i => i.zone_key = e.1) = [] := by
          simp [Ne.symm hk]
        rw [hsing, ← h2 e he, List.append_nil]
    · intro k
      constructor
      · rintro ⟨e', he', hk⟩
        obtain ⟨e, he, heq⟩ := List.mem_map.mp he'
        have hek : e.1 = k := by
          rw [← hk, ← heq]
          exact (hfst e he).symm
        obtain ⟨i, hi, hik⟩ := (h3 k).mp ⟨e, he, hek⟩
        exact ⟨i, List.mem_append.mpr (Or.inl hi), hik⟩
      · rintro ⟨i, hi, hik⟩
        rcases List.mem_append.mp hi with hip | hit
        · obtain ⟨e, he, hek⟩ := (h3 k).mpr ⟨i, hip, hik⟩
          exact ⟨_, List.mem_map.mpr ⟨e, he, rfl⟩, (hfst e he).trans hek⟩
        · have hit2 : i = it := by simpa using hit
          obtain ⟨e, he, hek⟩ := List.any_eq_true.mp hany
          have hek2 : e.1 = it.zone_key := by simpa using hek
          refine ⟨_, List.mem_map.mpr ⟨e, he, rfl⟩, ?_⟩
          rw [hfst e he, hek2, ← hit2]
          exact hik
  · unfold insertByZone
    rw [if_neg hany]
    have hnot : ∀ e ∈ acc, e.1 ≠ it.zone_key := by
      intro e he
      have := List.any_eq_false.mp (Bool.of_not_eq_true hany) e he
      simpa using this
    have hnopre : ∀ i ∈ pre, i.zone_key ≠ it.zone_key := by
      intro i hi hcontra
      obtain ⟨e, he, hek⟩ := (h3 it.zone_key).mpr ⟨i, hi, hcontra⟩
      exact hnot e he hek
    refine ⟨?_, ?_, ?_⟩
    · rw [List.map_append, List.nodup_append]
      refine ⟨h1, List.nodup_singleton _, ?_⟩
      intro k hk1 hk2
      obtain ⟨e, he, hek⟩ := List.mem_map.mp hk1
      have : k = it.zone_key := by simpa using hk2
      exact hnot e he (hek.trans this)
    · intro e he
      rcases List.mem_append.mp he with hea | heb
      · rw [List.filter_append]
        have hsing : [it].filter (fun i => i.zone_key = e.1) = [] := by
          simp [Ne.symm (hnot e hea)]
        rw [hsing, ← h2 e hea, List.append_nil]
      · have heq : e = (it.zone_key, [it]) := by simpa using heb
        rw [heq]
        have h4 : pre.filter (fun i => i.zone_key = it.zone_key) = [] :=
          List.filter_eq_nil_iff.mpr (fun i hi => by simp [hnopre i hi])
        rw [List.filter_append]
        simp [h4]
    · intro k
      constructor
      · rintro ⟨e, he, hek⟩
        rcases List.mem_append.mp he with hea | heb
        · obtain ⟨i, hi, hik⟩ := (h3 k).mp ⟨e, hea, hek⟩
          exact ⟨i, List.mem_append.mpr (Or.inl hi), hik⟩
        · have heq : e = (it.zone_key, [it]) := by simpa using heb
          refine ⟨it, List.mem_append.mpr (Or.inr (by simp)), ?_⟩
          rw [← hek, heq]
      · rintro ⟨i, hi, hik⟩
        rcases List.mem_append.mp hi with hip | hit
        · obtain ⟨e, he, hek⟩ := (h3 k).mpr ⟨i, hip, hik⟩
          exact ⟨e, List.mem_append.mpr (Or.inl he), hek⟩
        · have hit2 : i = it := by simpa using hit
          refine ⟨(it.zone_key, [it]),
            List.mem_append.mpr (Or.inr (by simp)), ?_⟩
          rw [← hit2]
          exact hik

lemma groupByZone_core :
    ∀ (items : List ItemScore) (acc : List (String × List ItemScore))
      (pre : List ItemScore),
      (acc.map Prod.fst).Nodup →
      (∀ e ∈ acc, e.2 = pre.filter (fun i => i.zone_key = e.1)) →
      (∀ k, (∃ e ∈ acc, e.1 = k) ↔ ∃ i ∈ pre, i.zone_key = k) →
      (((items.foldl insertByZone acc).map Prod.fst).Nodup)
      ∧ (∀ e ∈ items.foldl insertByZone acc,
          e.2 = (pre ++ items).filter (fun i => i.zone_key = e.1))
      ∧ (∀ k, (∃ e ∈ items.foldl insertByZone acc, e.1 = k)
          ↔ ∃ i ∈ pre ++ items, i.zone_key = k) := by
  intro items
  induction items with
  | nil =>
    intro acc pre h1 h2 h3
    simp only [List.foldl_nil, List.append_nil]
    exact ⟨h1, h2, h3⟩
  | cons it rest ih =>
    intro acc pre h1 h2 h3
    obtain ⟨g1, g2, g3⟩ := insertByZone_inv acc pre it h1 h2 h3
    have happ : (pre ++ [it]) ++ rest = pre ++ (it :: rest) := by
      simp
    obtain ⟨r1, r2, r3⟩ := ih (insertByZone acc it) (pre ++ [it]) g1 g2 g3
    rw [happ] at r2 r3
    exact ⟨r1, r2, r3⟩

/-- The grouped-by-zone view of an item list: distinct keys, each group
exactly the items of its zone, and a key is present iff some item has
it. -/
lemma groupByZone_props (items : List ItemScore) :
    (((groupByZone items).map Prod.fst).Nodup)
    ∧ (∀ e ∈ groupByZone items,
        e.2 = items.filter (fun i => i.zone_key = e.1))
    ∧ (∀ k, (∃ e ∈ groupByZone items, e.1 = k)
        ↔ ∃ i ∈ items, i.zone_key = k) := by
  have h := groupByZone_core items [] []
    (by simp) (by simp) (by simp)
  simpa [groupByZone] using h

/-! ### updateZoneRows characterization -/

lemma updOneZone_assessment_id (aid : String)
    (e : String × List ItemScore) (z : ZoneScore) :
    (updOneZone aid e z).assessment_id = z.assessment_id := by
  unfold updOneZone
  split <;> rfl

lemma updOneZone_zone_key (aid : String)
    (e : String × List ItemScore) (z : ZoneScore) :
    (updOneZone aid e z).zone_key = z.zone_key := by
  unfold updOneZone
  split <;> rfl

lemma updOneZone_id (aid : String)
    (e : String × List ItemScore) (z : ZoneScore) :
    (updOneZone aid e z).id = z.id := by
  unfold updOneZone
  split <;> rfl

/-- The step-5 zone loop is a per-row map. -/
lemma updateZoneRows_eq_map (aid : String)
    (byZone : List (String × List ItemScore)) (tbl : List ZoneScore) :
    updateZoneRows aid byZone tbl
      = tbl.map (fun z => byZone.foldl (fun zz e => updOneZone aid e zz) z) := by
  induction byZone generalizing tbl with
  | nil => simp [updateZoneRows]
  | cons e rest ih =>
    unfold updateZoneRows at ih ⊢
    rw [List.foldl_cons, ih, List.map_map]
    rfl

lemma zoneUpdFold_assessment_id (aid : String)
    (byZone : List (String × List ItemScore)) (z : ZoneScore) :
    (byZone.foldl (fun zz e => updOneZone aid e zz) z).assessment_id
      = z.assessment_id := by
  induction byZone generalizing z with
  | nil => rfl
  | cons e rest ih =>
    rw [List.foldl_cons, ih, updOneZone_assessment_id]

lemma zoneUpdFold_zone_key (aid : String)
    (byZone : List (String × List ItemScore)) (z : ZoneScore) :
    (byZone.foldl (fun zz e => updOneZone aid e zz) z).zone_key = z.zone_key := by
  induction byZone generalizing z with
  | nil => rfl
  | cons e rest ih =>
    rw [List.foldl_cons, ih, updOneZone_zone_key]

lemma zoneUpdFold_id (aid : String)
    (byZone : List (String × List ItemScore)) (z : ZoneScore) :
    (byZone.foldl (fun zz e => updOneZone aid e zz) z).id = z.id := by
  induction byZone generalizing z with
  | nil => rfl
  | cons e rest ih =>
    rw [List.foldl_cons, ih, updOneZone_id]

/-- A row matched by no group entry passes through the loop unchanged. -/
lemma zoneUpdFold_of_not_matched (aid : String)
    (byZone : List (String × List ItemScore)) (z : ZoneScore)
    (h : ∀ e ∈ byZone, ¬(z.assessment_id = aid ∧ z.zone_key = e.1)) :
    byZone.foldl (fun zz e => updOneZone aid e zz) z = z := by
  induction byZone with
  | nil => rfl
  | cons e rest ih =>
    rw [List.foldl_cons]
    have hz : updOneZone aid e z = z := by
      unfold updOneZone
      rw [if_neg]
      intro hcontra
      exact h e (List.mem_cons_self e rest) (by simpa using hcontra)
    rw [hz]
    exact ih (fun e2 he2 => h e2 (List.mem_cons_of_mem e he2))

/-- A row of the assessment whose key carries a (unique) group entry
leaves the loop holding the recomputed average and completion of that
entry's items. -/
lemma zoneUpdFold_of_matched (aid : String)
    (byZone : List (String × List ItemScore)) (z : ZoneScore)
    (k : String) (l : List ItemScore)
    (hnd : (byZone.map Prod.fst).Nodup)
    (hmem : (k, l) ∈ byZone)
    (hza : z.assessment_id = aid) (hzk : z.zone_key = k) :
    byZone.foldl (fun zz e => updOneZone aid e zz) z
      = { z with
          average_score := calculateZoneAverage l
          completed := isZoneComplete l } := by
  induction byZone generalizing z with
  | nil => exact absurd hmem (List.not_mem_nil _)
  | cons e rest ih =>
    rw [List.map_cons] at hnd
    have hnd1 := (List.nodup_cons.mp hnd).1
    have hnd2 := (List.nodup_cons.mp hnd).2
    rw [List.foldl_cons]
    rcases List.mem_cons.mp hmem with heq | hrest
    · have hupd : updOneZone aid e z
          = { z with
              average_score := calculateZoneAverage l
              completed := isZoneComplete l } := by
        unfold updOneZone
        rw [if_pos (by simp [hza, hzk, ← heq]), ← heq]
      rw [hupd]
      apply zoneUpdFold_of_not_matched
      rintro e2 he2 ⟨-, hk2⟩
      have hk3 : k = e2.1 := by
        rw [← hzk]
        exact hk2
      apply hnd1
      rw [← heq]
      exact List.mem_map.mpr ⟨e2, he2, hk3.symm⟩
    · have hne : e.1 ≠ k := by
        intro hcontra
        apply hnd1
        rw [hcontra]
        exact List.mem_map.mpr ⟨(k, l), hrest, rfl⟩
      have hupd : updOneZone aid e z = z := by
        unfold updOneZone
        rw [if_neg]
        simp only [hza, hzk, Bool.and_eq_true, decide_eq_true_eq, not_and]
        intro _ hcontra
        exact hne hcontra.symm
      rw [hupd]
      exact ih z hnd2 hrest hza hzk

/-! ### Field characterization of the committed sync transaction -/

lemma applyAssessmentData_id (p : Assessment) (now : String) (row : SAssessment) :
    (applyAssessmentData p now row).id = row.id := rfl

lemma before5_item_scores (p : SyncPayload) (now : String) (s : ServerState) :
    (syncStep4 p (syncStep3 p (syncStep2 p (syncStep1 p now s)))).item_scores
      = s.item_scores.filter (fun i => i.assessment_id ≠ p.assessment.id)
          ++ p.item_scores.map (mapPayloadItem p.assessment.id) := by
  rw [syncStep4_item_scores]
  show (syncStep2 p (syncStep1 p now s)).item_scores.filter _ ++ _ = _
  rw [show (syncStep2 p (syncStep1 p now s)).item_scores
      = (syncStep1 p now s).item_scores from rfl, syncStep1_item_scores]

lemma before5_zone_scores (p : SyncPayload) (now : String) (s : ServerState) :
    (syncStep4 p (syncStep3 p (syncStep2 p (syncStep1 p now s)))).zone_scores
      = s.zone_scores.filter (fun z => z.assessment_id ≠ p.assessment.id)
          ++ p.zone_scores.map (mapPayloadZone p.assessment.id) := by
  rw [syncStep4_zone_scores]
  show (syncStep1 p now s).zone_scores.filter _ ++ _ = _
  rw [syncStep1_zone_scores]

lemma before5_assessments (p : SyncPayload) (now : String) (s : ServerState) :
    (syncStep4 p (syncStep3 p (syncStep2 p (syncStep1 p now s)))).assessments
      = (syncStep1 p now s).assessments := by
  rw [syncStep4_assessments]
  rfl

lemma written_assessment_id (p : SyncPayload) :
    ∀ i ∈ p.item_scores.map (mapPayloadItem p.assessment.id),
      i.assessment_id = p.assessment.id := by
  intro i hi
  obtain ⟨j, _, rfl⟩ := List.mem_map.mp hi
  rfl

lemma mappedZones_assessment_id (p : SyncPayload) :
    ∀ z ∈ p.zone_scores.map (mapPayloadZone p.assessment.id),
      z.assessment_id = p.assessment.id := by
  intro z hz
  obtain ⟨w, _, rfl⟩ := List.mem_map.mp hz
  rfl

/-- What each table of the remote store holds after the committed sync
transaction. -/
lemma syncTransaction_fields (s : ServerState) (p : SyncPayload) (now : String) :
    (syncTransaction s p now).item_scores
        = s.item_scores.filter (fun i => i.assessment_id ≠ p.assessment.id)
            ++ p.item_scores.map (mapPayloadItem p.assessment.id)
    ∧ (syncTransaction s p now).zone_scores
        = updateZoneRows p.assessment.id
            (groupByZone (p.item_scores.map (mapPayloadItem p.assessment.id)))
            (s.zone_scores.filter (fun z => z.assessment_id ≠ p.assessment.id)
              ++ p.zone_scores.map (mapPayloadZone p.assessment.id))
    ∧ (syncTransaction s p now).assessments
        = (syncStep1 p now s).assessments.map (fun a =>
            if a.id = p.assessment.id then
              { a with
                overall_score := calculateOverallScore
                  (groupByZone (p.item_scores.map (mapPayloadItem p.assessment.id)))
                synced_at := some now }
            else a) := by
  have htrans : syncTransaction s p now
      = syncStep5 p now (syncStep4 p (syncStep3 p (syncStep2 p (syncStep1 p now s)))) :=
    rfl
  have hallItems :
      (syncStep4 p (syncStep3 p (syncStep2 p (syncStep1 p now s)))).item_scores.filter
          (fun i => i.assessment_id = p.assessment.id)
        = p.item_scores.map (mapPayloadItem p.assessment.id) := by
    rw [before5_item_scores]
    exact filter_reinserted _ _ _ (written_assessment_id p)
  refine ⟨?_, ?_, ?_⟩
  · rw [htrans]
    show (syncStep4 p (syncStep3 p (syncStep2 p (syncStep1 p now s)))).item_scores = _
    exact before5_item_scores p now s
  · rw [htrans]
    show updateZoneRows _ (groupByZone _) _ = _
    rw [hallItems, before5_zone_scores]
  · rw [htrans]
    show List.map _ (syncStep4 p (syncStep3 p (syncStep2 p (syncStep1 p now s)))).assessments = _
    rw [hallItems, before5_assessments]

/-- Step 1 guarantees the assessment row exists afterwards. -/
lemma syncStep1_has_row (p : SyncPayload) (now : String) (s : ServerState) :
    ∃ a ∈ (syncStep1 p now s).assessments, a.id = p.assessment.id := by
  unfold syncStep1
  by_cases h : s.assessments.any (fun a => a.id = p.assessment.id)
  · obtain ⟨a, ha, hid⟩ := List.any_eq_true.mp h
    have hid2 : a.id = p.assessment.id := by simpa using hid
    simp only [h, if_pos]
    refine ⟨applyAssessmentData p.assessment now a,
      List.mem_map.mpr ⟨a, ha, by rw [if_pos hid2]⟩, ?_⟩
    rw [applyAssessmentData_id, hid2]
  · simp only [h, Bool.false_eq_true, if_neg, not_false_eq_true]
    exact ⟨newAssessmentRow p.assessment now,
      List.mem_append.mpr (Or.inr (by simp)), rfl⟩

/-- Any post-transaction zone row of the assessment whose key appears
among the just-written item rows carries the engine-recomputed average
and completion. -/
lemma syncTransaction_zone_row (s : ServerState) (p : SyncPayload) (now : String) :
    ∀ z ∈ (syncTransaction s p now).zone_scores,
      z.assessment_id = p.assessment.id →
      (∃ i ∈ p.item_scores.map (mapPayloadItem p.assessment.id),
        i.zone_key = z.zone_key) →
      z.average_score = calculateZoneAverage
          ((p.item_scores.map (mapPayloadItem p.assessment.id)).filter
            (fun i => i.zone_key = z.zone_key))
        ∧ z.completed = isZoneComplete
          ((p.item_scores.map (mapPayloadItem p.assessment.id)).filter
            (fun i => i.zone_key = z.zone_key)) := by
  intro z hz hza hex
  obtain ⟨-, hzs, -⟩ := syncTransaction_fields s p now
  rw [hzs, updateZoneRows_eq_map] at hz
  obtain ⟨w, hw, hzeq⟩ := List.mem_map.mp hz
  subst hzeq
  have hkey := zoneUpdFold_zone_key p.assessment.id
    (groupByZone (p.item_scores.map (mapPayloadItem p.assessment.id))) w
  have hwa : w.assessment_id = p.assessment.id := by
    rw [← zoneUpdFold_assessment_id p.assessment.id
      (groupByZone (p.item_scores.map (mapPayloadItem p.assessment.id))) w]
    exact hza
  rw [hkey] at hex ⊢
  obtain ⟨props1, props2, props3⟩ :=
    groupByZone_props (p.item_scores.map (mapPayloadItem p.assessment.id))
  obtain ⟨e, he, hek⟩ := (props3 w.zone_key).mpr hex
  have he2 := props2 e he
  rw [hek] at he2
  have heq : e = (w.zone_key,
      (p.item_scores.map (mapPayloadItem p.assessment.id)).filter
        (fun i => i.zone_key = w.zone_key)) := by
    cases e
    simp only at hek he2
    rw [hek, he2]
  have hmem : (w.zone_key,
      (p.item_scores.map (mapPayloadItem p.assessment.id)).filter
        (fun i => i.zone_key = w.zone_key))
        ∈ groupByZone (p.item_scores.map (mapPayloadItem p.assessment.id)) :=
    heq ▸ he
  have hfold := zoneUpdFold_of_matched p.assessment.id
    (groupByZone (p.item_scores.map (mapPayloadItem p.assessment.id))) w
    w.zone_key
    ((p.item_scores.map (mapPayloadItem p.assessment.id)).filter
      (fun i => i.zone_key = w.zone_key))
    props1 hmem hwa rfl
  rw [hfold]
  exact ⟨rfl, rfl⟩

/-- Any post-transaction zone row of the assessment whose key has no
just-written item row is the client-submitted zone row, aggregates
included, with only assessment_id rewritten. -/
lemma syncTransaction_zone_row_untouched (s : ServerState) (p : SyncPayload)
    (now : String) :
    ∀ z ∈ (syncTransaction s p now).zone_scores,
      z.assessment_id = p.assessment.id →
      (¬∃ i ∈ p.item_scores.map (mapPayloadItem p.assessment.id),
        i.zone_key = z.zone_key) →
      ∃ w ∈ p.zone_scores, z = { w with assessment_id := p.assessment.id } := by
  intro z hz hza hnex
  obtain ⟨-, hzs, -⟩ := syncTransaction_fields s p now
  rw [hzs, updateZoneRows_eq_map] at hz
  obtain ⟨w, hw, hzeq⟩ := List.mem_map.mp hz
  subst hzeq
  have hkey := zoneUpdFold_zone_key p.assessment.id
    (groupByZone (p.item_scores.map (mapPayloadItem p.assessment.id))) w
  have hwa : w.assessment_id = p.assessment.id := by
    rw [← zoneUpdFold_assessment_id p.assessment.id
      (groupByZone (p.item_scores.map (mapPayloadItem p.assessment.id))) w]
    exact hza
  rw [hkey] at hnex
  obtain ⟨props1, props2, props3⟩ :=
    groupByZone_props (p.item_scores.map (mapPayloadItem p.assessment.id))
  have hfold : (groupByZone (p.item_scores.map
      (mapPayloadItem p.assessment.id))).foldl
        (fun zz e => updOneZone p.assessment.id e zz) w = w := by
    apply zoneUpdFold_of_not_matched
    rintro e he ⟨-, hk⟩
    exact hnex ((props3 w.zone_key).mp ⟨e, he, hk.symm⟩)
  rw [hfold]
  rcases List.mem_append.mp hw with hleft | hright
  · have := List.of_mem_filter hleft
    simp [hwa] at this
  · obtain ⟨w0, hw0, hmap⟩ := List.mem_map.mp hright
    exact ⟨w0, hw0, by rw [← hmap, mapPayloadZone_eq]⟩

/-- The post-transaction assessment row holds the recomputed overall
score and the new synced_at stamp. -/
lemma syncTransaction_overall (s : ServerState) (p : SyncPayload) (now : String) :
    ∀ a ∈ (syncTransaction s p now).assessments, a.id = p.assessment.id →
      a.overall_score = calculateOverallScore
          (groupByZone (p.item_scores.map (mapPayloadItem p.assessment.id)))
        ∧ a.synced_at = some now := by
  intro a ha hid
  obtain ⟨-, -, hfa⟩ := syncTransaction_fields s p now
  rw [hfa] at ha
  obtain ⟨b, hb, heq⟩ := List.mem_map.mp ha
  by_cases hbid : b.id = p.assessment.id
  · rw [if_pos hbid] at heq
    rw [← heq]
    exact ⟨rfl, rfl⟩
  · rw [if_neg hbid] at heq
    rw [← heq] at hid
    exact absurd hid hbid

/-! ### C1 fixtures and claim -/

/-- Client-submitted zone row carrying a bogus aggregate (99). -/
def cxZone : ZoneScore :=
  { id := "zs1"
    assessment_id := "a1"
    zone_key := "z1"
    zone_name := "Zone 1"
    zone_order := 1
    average_score := some 99
    priority_findings := ""
    notes := ""
    completed := true }

/-- Push payload with that zone row and no item rows at all. -/
def cxPayload : SyncPayload :=
  { assessment := exClientAssessment
    zone_scores := [cxZone]
    item_scores := []
    photos := [] }

/-- An N/A item of zone z1. -/
def cwItem : ItemScore :=
  { id := "it1"
    assessment_id := "a1"
    zone_key := "z1"
    principle := "nat_surv"
    item_text := "t"
    item_order := 0
    score := none
    is_na := true
    notes := ""
    photo_ids := [] }

/-- Push payload with the bogus zone row and one N/A item in its zone. -/
def cwPayload : SyncPayload :=
  { assessment := exClientAssessment
    zone_scores := [cxZone]
    item_scores := [cwItem]
    photos := [] }

/-- The zone row as the recompute leaves it for cwPayload. -/
def cwZoneUpdated : ZoneScore :=
  { cxZone with average_score := none, completed := true }

/-- The assessment row as the transaction leaves it for cwPayload. -/
def cwPushedRow : SAssessment :=
  { newAssessmentRow exClientAssessment "T" with
    overall_score := calculateOverallScore
      (groupByZone (cwPayload.item_scores.map (mapPayloadItem cwPayload.assessment.id)))
    synced_at := some "T" }

/-- C1 counterexample: a successful Push whose payload carries a zone
row with client aggregate 99 and no item row for that zone leaves the
remote ZoneScore holding 99, although the Score Aggregation Engine
recomputes null from the just-written (empty) item set — so the
recomputed result does not overwrite the client-submitted aggregate for
every remote ZoneScore row. -/
theorem claim_C1_counterexample_client_aggregate_survives :
    (syncTransaction emptyServer cxPayload "T").zone_scores.map
        (fun z => (z.zone_key, z.average_score)) = [("z1", some (99 : ℚ))]
    ∧ calculateZoneAverage
        (((syncTransaction emptyServer cxPayload "T").item_scores.filter
          (fun i => i.assessment_id = "a1")).filter
          (fun i => i.zone_key = "z1")) = none
    ∧ some (99 : ℚ) ≠ none := by
  decide

/-- C1 (amended): after a successful Push, every remote ZoneScore row
of the assessment whose zone key appears among the just-written
ItemScore rows holds the engine-recomputed average and completion, and
the remote Assessment row always holds the engine-recomputed overall
score; a zone row whose key has no just-written item instead keeps the
client-submitted aggregates (it is the payload zone row verbatim, only
assessment_id rewritten). -/
theorem claim_C1_amended_server_recompute_scope :
    ∀ (s : ServerState) (p : SyncPayload) (now : String),
      (∀ z ∈ (syncTransaction s p now).zone_scores,
        z.assessment_id = p.assessment.id →
        (∃ i ∈ p.item_scores.map (mapPayloadItem p.assessment.id),
          i.zone_key = z.zone_key) →
        z.average_score = calculateZoneAverage
            ((p.item_scores.map (mapPayloadItem p.assessment.id)).filter
              (fun i => i.zone_key = z.zone_key))
          ∧ z.completed = isZoneComplete
            ((p.item_scores.map (mapPayloadItem p.assessment.id)).filter
              (fun i => i.zone_key = z.zone_key)))
      ∧ (∀ a ∈ (syncTransaction s p now).assessments, a.id = p.assessment.id →
          a.overall_score = calculateOverallScore
            (groupByZone (p.item_scores.map (mapPayloadItem p.assessment.id))))
      ∧ (∀ z ∈ (syncTransaction s p now).zone_scores,
          z.assessment_id = p.assessment.id →
          (¬∃ i ∈ p.item_scores.map (mapPayloadItem p.assessment.id),
            i.zone_key = z.zone_key) →
          ∃ w ∈ p.zone_scores, z = { w with assessment_id := p.assessment.id }) :=
  fun s p now =>
    ⟨syncTransaction_zone_row s p now,
     fun a ha hid => (syncTransaction_overall s p now a ha hid).1,
     syncTransaction_zone_row_untouched s p now⟩

/-- Witness for the C1 amended theorem: the N/A-item payload gets its
zone row recomputed to (null, completed) and its overall recomputed;
the itemless payload keeps its client aggregate verbatim. -/
theorem claim_C1_amended_server_recompute_scope_witness :
    (cwZoneUpdated.average_score = calculateZoneAverage
        ((cwPayload.item_scores.map (mapPayloadItem cwPayload.assessment.id)).filter
          (fun i => i.zone_key = cwZoneUpdated.zone_key))
      ∧ cwZoneUpdated.completed = isZoneComplete
        ((cwPayload.item_scores.map (mapPayloadItem cwPayload.assessment.id)).filter
          (fun i => i.zone_key = cwZoneUpdated.zone_key)))
    ∧ cwPushedRow.overall_score = calculateOverallScore
        (groupByZone (cwPayload.item_scores.map (mapPayloadItem cwPayload.assessment.id)))
    ∧ (∃ w ∈ cxPayload.zone_scores,
        mapPayloadZone cxPayload.assessment.id cxZone
          = { w with assessment_id := cxPayload.assessment.id }) := by
  refine ⟨?_, ?_, ?_⟩
  · exact (claim_C1_amended_server_recompute_scope emptyServer cwPayload "T").1
      cwZoneUpdated (by decide) (by decide)
      ⟨mapPayloadItem "a1" cwItem, by decide, by decide⟩
  · exact (claim_C1_amended_server_recompute_scope emptyServer cwPayload "T").2.1
      cwPushedRow (by decide) (by decide)
  · exact (claim_C1_amended_server_recompute_scope emptyServer cxPayload "T").2.2
      (mapPayloadZone cxPayload.assessment.id cxZone) (by decide) (by decide)
      (by decide)

/-! ### Round-trip helper lemmas -/

lemma foldl_dexiePut_append {α} (key : α → String) :
    ∀ (inc : List α) (base : List α),
      (inc.map key).Nodup →
      (∀ x ∈ inc, ∀ b ∈ base, key b ≠ key x) →
      inc.foldl (dexiePut key) base = base ++ inc := by
  intro inc
  induction inc with
  | nil =>
    intro base _ _
    simp
  | cons x rest ih =>
    intro base hnd hdisj
    rw [List.foldl_cons]
    have hput : dexiePut key base x = base ++ [x] := by
      unfold dexiePut
      rw [if_neg]
      intro hcontra
      obtain ⟨b, hb, hbk⟩ := List.any_eq_true.mp hcontra
      exact hdisj x (List.mem_cons_self _ _) b hb (by simpa using hbk)
    rw [hput]
    rw [List.map_cons, List.nodup_cons] at hnd
    have hdisj2 : ∀ y ∈ rest, ∀ b ∈ base ++ [x], key b ≠ key y := by
      intro y hy b hb
      rcases List.mem_append.mp hb with hbl | hbr
      · exact hdisj y (List.mem_cons_of_mem _ hy) b hbl
      · have hbx : b = x := by simpa using hbr
        rw [hbx]
        intro hcontra
        exact hnd.1 (hcontra ▸ List.mem_map.mpr ⟨y, hy, rfl⟩)
    rw [ih (base ++ [x]) hnd.2 hdisj2]
    simp

lemma dexiePut_mem_key {α} (key : α → String) (tbl : List α) (x : α) :
    ∀ y ∈ dexiePut key tbl x, key y = key x → y = x := by
  intro y hy hk
  unfold dexiePut at hy
  by_cases hcond : tbl.any (fun t => key t = key x)
  · rw [if_pos hcond] at hy
    obtain ⟨t, ht, heq⟩ := List.mem_map.mp hy
    by_cases h : key t = key x
    · rw [if_pos h] at heq
      exact heq.symm
    · rw [if_neg h] at heq
      rw [← heq] at hk
      exact absurd hk h
  · rw [if_neg hcond] at hy
    rcases List.mem_append.mp hy with h | h
    · have := List.any_eq_false.mp (Bool.of_not_eq_true hcond) y h
      rw [hk] at this
      simp at this
    · simpa using h

lemma filter_of_map {α β} (f : α → β) (q : β → Bool) (l : List α) :
    (l.map f).filter q = (l.filter (fun x => q (f x))).map f := by
  induction l with
  | nil => rfl
  | cons x xs ih =>
    by_cases h : q (f x) <;> simp [List.filter_cons, h, ih]

lemma map_pullMapItem (l : List ItemScore) : l.map pullMapItem = l := by
  induction l with
  | nil => rfl
  | cons x xs ih => rw [List.map_cons, pullMapItem_id, ih]

lemma map_pullMapZone (l : List ZoneScore) : l.map pullMapZone = l := by
  induction l with
  | nil => rfl
  | cons x xs ih => rw [List.map_cons, pullMapZone_id, ih]

lemma written_ids (p : SyncPayload) :
    (p.item_scores.map (mapPayloadItem p.assessment.id)).map (fun i => i.id)
      = p.item_scores.map (fun i => i.id) := by
  rw [List.map_map]
  rfl

/-- The zone rows the GET route returns after a Push: the payload zone
rows, assessment_id rewritten, passed through the recompute loop. -/
lemma pushed_zone_rows (s : ServerState) (p : SyncPayload) (now : String) :
    (syncTransaction s p now).zone_scores.filter
        (fun z => z.assessment_id = p.assessment.id)
      = (p.zone_scores.map (mapPayloadZone p.assessment.id)).map
          (fun z => (groupByZone (p.item_scores.map
              (mapPayloadItem p.assessment.id))).foldl
            (fun zz e => updOneZone p.assessment.id e zz) z) := by
  obtain ⟨-, hzs, -⟩ := syncTransaction_fields s p now
  rw [hzs, updateZoneRows_eq_map, filter_of_map]
  have hcongr : ∀ z ∈ (s.zone_scores.filter
      (fun z => z.assessment_id ≠ p.assessment.id)
        ++ p.zone_scores.map (mapPayloadZone p.assessment.id)),
      (decide (((groupByZone (p.item_scores.map
          (mapPayloadItem p.assessment.id))).foldl
        (fun zz e => updOneZone p.assessment.id e zz) z).assessment_id
          = p.assessment.id))
        = decide (z.assessment_id = p.assessment.id) := by
    intro z _
    rw [zoneUpdFold_assessment_id]
  rw [List.filter_congr hcongr]
  rw [filter_reinserted_zones _ _ _ (mappedZones_assessment_id p)]

/-- The item rows the GET route returns after a Push are exactly the
just-written rows. -/
lemma pushed_item_rows (s : ServerState) (p : SyncPayload) (now : String) :
    (syncTransaction s p now).item_scores.filter
        (fun i => i.assessment_id = p.assessment.id)
      = p.item_scores.map (mapPayloadItem p.assessment.id) := by
  obtain ⟨hfi, -, -⟩ := syncTransaction_fields s p now
  rw [hfi]
  exact filter_reinserted _ _ _ (written_assessment_id p)

lemma pullApply_local_fields (data : FullResponse)
    (fetch : String → Option String) (toD : String → String)
    (nowIso id : String) (loc : LocalState) :
    (pullApply data fetch toD nowIso id loc).1.assessments
        = putAssessmentRow loc.assessments (respToLocalAssessment data.assessment)
    ∧ (pullApply data fetch toD nowIso id loc).1.zone_scores
        = (data.zone_scores.map pullMapZone).foldl putZoneRow
            (loc.zone_scores.filter (fun z => z.assessment_id ≠ id))
    ∧ (pullApply data fetch toD nowIso id loc).1.item_scores
        = (data.item_scores.map pullMapItem).foldl putItemRow
            (loc.item_scores.filter (fun i => i.assessment_id ≠ id)) :=
  ⟨rfl, rfl, rfl⟩

/-- C6: a Push immediately followed by a Pull of the same assessment
identity reproduces the device's item-score set (same id, zone and
principle keys, order, text, score, is_na, notes and photo ids — only
assessment_id is rewritten to the pushed identity), and the pulled
zone averages, completion flags and overall score equal the Score
Aggregation Engine recomputed on the pulled local item rows — the same
pure functions both sides run, hence bit-for-bit agreement. Row ids are
assumed globally unique (they are uuids): payload ids are distinct and
do not collide with other assessments' local rows. -/
theorem claim_C6_push_pull_round_trip :
    ∀ (s : ServerState) (loc : LocalState) (p : SyncPayload)
      (now nowIso : String) (fetch : String → Option String)
      (toD : String → String),
      (p.item_scores.map (fun i => i.id)).Nodup →
      (∀ b ∈ loc.item_scores, b.assessment_id ≠ p.assessment.id →
        ∀ j ∈ p.item_scores, b.id ≠ j.id) →
      (p.zone_scores.map (fun z => z.id)).Nodup →
      (∀ b ∈ loc.zone_scores, b.assessment_id ≠ p.assessment.id →
        ∀ w ∈ p.zone_scores, b.id ≠ w.id) →
      ∃ out,
        pullAssessment (syncTransaction s p now) p.assessment.id fetch toD
            nowIso loc = some out
        ∧ out.1.item_scores.filter (fun i => i.assessment_id = p.assessment.id)
            = p.item_scores.map
                (fun i => { i with assessment_id := p.assessment.id })
        ∧ (∀ z ∈ out.1.zone_scores, z.assessment_id = p.assessment.id →
            (∃ i ∈ out.1.item_scores.filter
                (fun i => i.assessment_id = p.assessment.id),
              i.zone_key = z.zone_key) →
            z.average_score = calculateZoneAverage
                ((out.1.item_scores.filter
                  (fun i => i.assessment_id = p.assessment.id)).filter
                  (fun i => i.zone_key = z.zone_key))
              ∧ z.completed = isZoneComplete
                ((out.1.item_scores.filter
                  (fun i => i.assessment_id = p.assessment.id)).filter
                  (fun i => i.zone_key = z.zone_key)))
        ∧ (∀ a ∈ out.1.assessments, a.id = p.assessment.id →
            a.overall_score = calculateOverallScore
              (groupByZone (out.1.item_scores.filter
                (fun i => i.assessment_id = p.assessment.id)))) := by
  intro s loc p now nowIso fetch toD h1 h2 h3 h4
  obtain ⟨a0, ha0, hid0⟩ := syncStep1_has_row p now s
  obtain ⟨-, -, hfa⟩ := syncTransaction_fields s p now
  have hrowmem : ∃ a' ∈ (syncTransaction s p now).assessments,
      a'.id = p.assessment.id := by
    rw [hfa]
    refine ⟨_, List.mem_map.mpr ⟨a0, ha0, rfl⟩, ?_⟩
    rw [if_pos hid0]
    exact hid0
  obtain ⟨aw, hawmem, hawid⟩ := hrowmem
  have hfindsome : ((syncTransaction s p now).assessments.find?
      (fun a => a.id = p.assessment.id)).isSome := by
    rw [List.find?_isSome]
    exact ⟨aw, hawmem, by simp [hawid]⟩
  obtain ⟨a', hfind⟩ := Option.isSome_iff_exists.mp hfindsome
  have ha'mem := List.mem_of_find?_eq_some hfind
  have ha'id : a'.id = p.assessment.id := by
    simpa using List.find?_some hfind
  obtain ⟨ha'overall, -⟩ := syncTransaction_overall s p now a' ha'mem ha'id
  have hga : getAssessmentFull (syncTransaction s p now) p.assessment.id
      = some { assessment := a'
               zone_scores := (syncTransaction s p now).zone_scores.filter
                 (fun z => z.assessment_id = p.assessment.id)
               item_scores := (syncTransaction s p now).item_scores.filter
                 (fun i => i.assessment_id = p.assessment.id)
               photos := ((syncTransaction s p now).photos.filter
                 (fun ph => ph.assessment_id = p.assessment.id)).map
                   stripBlobPath } := by
    unfold getAssessmentFull
    rw [hfind]
  obtain ⟨data, hgad, hdA, hdZ, hdI⟩ :
      ∃ data, getAssessmentFull (syncTransaction s p now) p.assessment.id
          = some data
        ∧ data.assessment = a'
        ∧ data.zone_scores = (syncTransaction s p now).zone_scores.filter
            (fun z => z.assessment_id = p.assessment.id)
        ∧ data.item_scores = (syncTransaction s p now).item_scores.filter
            (fun i => i.assessment_id = p.assessment.id) :=
    ⟨_, hga, rfl, rfl, rfl⟩
  refine ⟨pullApply data fetch toD nowIso p.assessment.id loc, ?_, ?_⟩
  · unfold pullAssessment
    rw [hgad]
  obtain ⟨hlassess, hlzones, hlitems⟩ := pullApply_local_fields data
    fetch toD nowIso p.assessment.id loc
  rw [hdI, pushed_item_rows, map_pullMapItem] at hlitems
  have hitems2 : (pullApply data fetch toD nowIso p.assessment.id loc).1.item_scores
      = loc.item_scores.filter (fun i => i.assessment_id ≠ p.assessment.id)
          ++ p.item_scores.map (mapPayloadItem p.assessment.id) := by
    rw [hlitems]
    apply foldl_dexiePut_append
    · rw [written_ids]
      exact h1
    · intro x hx b hb
      obtain ⟨j, hj, hjx⟩ := List.mem_map.mp hx
      have hbmem := List.mem_of_mem_filter hb
      have hbne : b.assessment_id ≠ p.assessment.id := by
        have := List.of_mem_filter hb
        simpa using this
      rw [← hjx]
      exact h2 b hbmem hbne j hj
  have hfilteritems :
      (pullApply data fetch toD nowIso p.assessment.id loc).1.item_scores.filter
          (fun i => i.assessment_id = p.assessment.id)
        = p.item_scores.map (mapPayloadItem p.assessment.id) := by
    rw [hitems2]
    exact filter_reinserted _ _ _ (written_assessment_id p)
  refine ⟨?_, ?_, ?_⟩
  · rw [hfilteritems]
    exact List.map_congr_left (fun i _ => mapPayloadItem_eq _ i)
  · intro z hz hza hex
    rw [hfilteritems] at hex ⊢
    rw [hlzones, hdZ, pushed_zone_rows, map_pullMapZone] at hz
    have happend : ((p.zone_scores.map (mapPayloadZone p.assessment.id)).map
        (fun z => (groupByZone (p.item_scores.map
            (mapPayloadItem p.assessment.id))).foldl
          (fun zz e => updOneZone p.assessment.id e zz) z)).foldl putZoneRow
          (loc.zone_scores.filter (fun z => z.assessment_id ≠ p.assessment.id))
        = loc.zone_scores.filter (fun z => z.assessment_id ≠ p.assessment.id)
            ++ (p.zone_scores.map (mapPayloadZone p.assessment.id)).map
              (fun z => (groupByZone (p.item_scores.map
                  (mapPayloadItem p.assessment.id))).foldl
                (fun zz e => updOneZone p.assessment.id e zz) z) := by
      apply foldl_dexiePut_append
      · rw [List.map_map, List.map_map]
        rw [List.map_congr_left (fun w _ => by
          show ((groupByZone (p.item_scores.map
              (mapPayloadItem p.assessment.id))).foldl
            (fun zz e => updOneZone p.assessment.id e zz)
              (mapPayloadZone p.assessment.id w)).id = w.id
          rw [zoneUpdFold_id]
          rfl)]
        exact h3
      · intro x hx b hb
        obtain ⟨mz, hmz, hmzx⟩ := List.mem_map.mp hx
        obtain ⟨w, hw, hwmz⟩ := List.mem_map.mp hmz
        have hbmem := List.mem_of_mem_filter hb
        have hbne : b.assessment_id ≠ p.assessment.id := by
          have := List.of_mem_filter hb
          simpa using this
        have hxid : x.id = w.id := by
          rw [← hmzx, zoneUpdFold_id, ← hwmz]
          rfl
        rw [hxid]
        exact h4 b hbmem hbne w hw
    rw [happend] at hz
    rcases List.mem_append.mp hz with hzl | hzr
    · have := List.of_mem_filter hzl
      simp [hza] at this
    · have hzmem : z ∈ (syncTransaction s p now).zone_scores := by
        have hzf : z ∈ (syncTransaction s p now).zone_scores.filter
            (fun z => z.assessment_id = p.assessment.id) := by
          rw [pushed_zone_rows]
          exact hzr
        exact List.mem_of_mem_filter hzf
      exact syncTransaction_zone_row s p now z hzmem hza hex
  · intro la hla hlaid
    rw [hlassess] at hla
    unfold putAssessmentRow at hla
    have hla2 : la = respToLocalAssessment data.assessment := by
      apply dexiePut_mem_key (fun x => x.id) loc.assessments
        (respToLocalAssessment data.assessment) la hla
      show la.id = (respToLocalAssessment data.assessment).id
      rw [hlaid, hdA]
      show p.assessment.id = a'.id
      exact ha'id.symm
    rw [hfilteritems, hla2, hdA]
    show a'.overall_score = _
    exact ha'overall

/-- Witness for C6 at a concrete push-then-pull of the N/A-item payload
into an empty device. -/
theorem claim_C6_push_pull_round_trip_witness :
    ∃ out,
      pullAssessment (syncTransaction emptyServer cwPayload "T")
          cwPayload.assessment.id exFetchFail2 (fun b => b) "N" emptyLocal
        = some out
      ∧ out.1.item_scores.filter
          (fun i => i.assessment_id = cwPayload.assessment.id)
        = cwPayload.item_scores.map
            (fun i => { i with assessment_id := cwPayload.assessment.id })
      ∧ (∀ z ∈ out.1.zone_scores, z.assessment_id = cwPayload.assessment.id →
          (∃ i ∈ out.1.item_scores.filter
              (fun i => i.assessment_id = cwPayload.assessment.id),
            i.zone_key = z.zone_key) →
          z.average_score = calculateZoneAverage
              ((out.1.item_scores.filter
                (fun i => i.assessment_id = cwPayload.assessment.id)).filter
                (fun i => i.zone_key = z.zone_key))
            ∧ z.completed = isZoneComplete
              ((out.1.item_scores.filter
                (fun i => i.assessment_id = cwPayload.assessment.id)).filter
                (fun i => i.zone_key = z.zone_key)))
      ∧ (∀ a ∈ out.1.assessments, a.id = cwPayload.assessment.id →
          a.overall_score = calculateOverallScore
            (groupByZone (out.1.item_scores.filter
              (fun i => i.assessment_id = cwPayload.assessment.id)))) :=
  claim_C6_push_pull_round_trip emptyServer emptyLocal cwPayload "T" "N"
    exFetchFail2 (fun b => b) (by decide) (by decide) (by decide) (by decide)

end CPTED
